import Mathlib

/-!
Verification of the C-tokenizer / preprocessor, the recursive-descent C
parser, the C-to-Java type translator and the Java code model of the
`very-slow-jython` repository (directory `rt3/tools/python/lib`).

The Python sources are shallowly embedded: every definition below mirrors a
specific function of the repository, named in its doc comment.  Strings are
modelled as `List Char` (`cs` converts literals); Python exceptions are
modelled by explicit error results; the token machine, which can diverge on
self-referential macros, is driven by explicit fuel.
-/

set_option maxRecDepth 10000

/-- Shorthand: a Lean string literal as the `List Char` the model works on. -/
def cs (s : String) : List Char := s.data

/-- Token kinds: mirror of class `TokenType` in `cparser/tokenizer.py`
(the Python values are interned strings compared with `is`). -/
inductive TType where
  | AMPERSAND | ARROW | AUGASSIGN | COLON | COMMA | COMPARE | DECREMENT
  | DEFINE | DIRECTIVE | DIV_OPERATOR | DOT | ELLIPSIS | EQUAL | IDENTIFIER
  | INCLUDE | INCREMENT | KEYWORD | LEFT_BRACE | LEFT_BRACKET | LEFT_PAR
  | MINUS | NEWLINE | NULL | NUMBER | OPERATOR | PLUS | QUESTION_MARK
  | RIGHT_BRACE | RIGHT_BRACKET | RIGHT_PAR | SEMICOLON | SHIFT_OPERATOR
  | STAR | STRING | SYMBOL | UNARY_OP | VARARGS
  deriving DecidableEq, Repr

/-- A token: the tuple `(token_type, index, text)` produced by
`RawTokenizer._consume` in `cparser/tokenizer.py`. -/
structure Tok where
  kind : TType
  pos : Nat
  text : List Char
  deriving DecidableEq, Repr

/-- `TokenType._single_char_symbols` of `cparser/tokenizer.py`. -/
def single1 (c : Char) : Option TType :=
  if c = '(' then some .LEFT_PAR
  else if c = ')' then some .RIGHT_PAR
  else if c = '[' then some .LEFT_BRACKET
  else if c = ']' then some .RIGHT_BRACKET
  else if c = '\x7b' then some .LEFT_BRACE
  else if c = '\x7d' then some .RIGHT_BRACE
  else if c = ';' then some .SEMICOLON
  else if c = ',' then some .COMMA
  else if c = ':' then some .COLON
  else if c = '.' then some .DOT
  else if c = '?' then some .QUESTION_MARK
  else if c = '=' then some .EQUAL
  else if c = '*' then some .STAR
  else if c = '+' then some .PLUS
  else if c = '-' then some .MINUS
  else if c = '~' then some .UNARY_OP
  else if c = '!' then some .UNARY_OP
  else if c = '&' then some .AMPERSAND
  else if c = '/' then some .DIV_OPERATOR
  else if c = '%' then some .DIV_OPERATOR
  else if c = '|' then some .OPERATOR
  else if c = '^' then some .OPERATOR
  else if c = '<' then some .COMPARE
  else if c = '>' then some .COMPARE
  else none

/-- `TokenType._double_char_symbols` of `cparser/tokenizer.py`. -/
def double2 (c d : Char) : Option TType :=
  if c = '-' ∧ d = '>' then some .ARROW
  else if (c = '=' ∨ c = '!' ∨ c = '<' ∨ c = '>') ∧ d = '=' then some .COMPARE
  else if (c = '+' ∨ c = '-' ∨ c = '*' ∨ c = '/' ∨ c = '%' ∨ c = '&' ∨ c = '|' ∨ c = '^') ∧ d = '=' then
    some .AUGASSIGN
  else if c = '&' ∧ d = '&' then some .OPERATOR
  else if c = '|' ∧ d = '|' then some .OPERATOR
  else if c = '<' ∧ d = '<' then some .SHIFT_OPERATOR
  else if c = '>' ∧ d = '>' then some .SHIFT_OPERATOR
  else if c = '+' ∧ d = '+' then some .INCREMENT
  else if c = '-' ∧ d = '-' then some .DECREMENT
  else none

/-- `TokenType._triple_char_symbols` of `cparser/tokenizer.py`. -/
def triple3 (c d e : Char) : Option TType :=
  if c = '.' ∧ d = '.' ∧ e = '.' then some .ELLIPSIS
  else if c = '>' ∧ d = '>' ∧ e = '=' then some .AUGASSIGN
  else if c = '<' ∧ d = '<' ∧ e = '=' then some .AUGASSIGN
  else none

/-- The `KEYWORDS` set of `cparser/tokenizer.py`. -/
def KEYWORDS : List (List Char) :=
  [cs "auto", cs "break", cs "case", cs "const", cs "continue", cs "do",
   cs "default", cs "else", cs "enum", cs "extern", cs "for", cs "if",
   cs "goto", cs "register", cs "return", cs "sizeof", cs "static",
   cs "struct", cs "switch", cs "typedef", cs "union", cs "volatile",
   cs "while"]

/-- Python `str.isidentifier()` on one character, for the ASCII sources the
tokenizer is applied to: a letter or an underscore. -/
def isIdentChar (c : Char) : Bool := c.isAlpha || c = '_'

/-- Python slice `src[a:b]`. -/
def sl (src : List Char) (a b : Nat) : List Char := (src.drop a).take (b - a)

/-- The inner whitespace loop of `RawTokenizer.read_token`: advance over
characters `≤ ' '`, but return a pending newline position when
`_want_line_break` is set.  `.inr i` means the loop stopped at index `i`. -/
def wsLoop : Nat → List Char → Nat → Bool → Nat ⊕ Nat
  | 0, _, i, _ => .inr i
  | f+1, src, i, wantNl =>
    match src.get? i with
    | some c =>
      if c ≤ ' ' then
        if c = '\n' ∧ wantNl then .inl i
        else wsLoop f src (i+1) wantNl
      else .inr i
    | none => .inr i

/-- The `//`-comment scan of `RawTokenizer.read_token`: skip to the next
newline and past it when present. -/
def lineCommentEnd : Nat → List Char → Nat → Nat
  | 0, _, i => i
  | f+1, src, i =>
    match src.get? i with
    | some c => if c = '\n' then i + 1 else lineCommentEnd f src (i+1)
    | none => i

/-- The `/*`-comment scan of `RawTokenizer.read_token`: starting at the index
already advanced by 4, advance while `src[i-2:i] != '*/'`. -/
def blockCommentEnd : Nat → List Char → Nat → Nat
  | 0, _, i => i
  | f+1, src, i =>
    if i < src.length then
      if src.get? (i-2) = some '*' ∧ src.get? (i-1) = some '/' then i
      else blockCommentEnd f src (i+1)
    else i

/-- The whole whitespace/comment/line-continuation skip (the `while True` loop
opening `RawTokenizer.read_token`).  `.inl p` reports a pending NEWLINE token
at position `p`. -/
def skipAll : Nat → List Char → Nat → Bool → Nat ⊕ Nat
  | 0, _, i, _ => .inr i
  | f+1, src, i, wantNl =>
    match wsLoop (src.length + 1) src i wantNl with
    | .inl p => .inl p
    | .inr i =>
      if src.get? i = some '/' ∧ src.get? (i+1) = some '/' then
        skipAll f src (lineCommentEnd (src.length + 1) src i) wantNl
      else if src.get? i = some '/' ∧ src.get? (i+1) = some '*' then
        skipAll f src (blockCommentEnd (src.length + 1) src (i + 4)) wantNl
      else if src.get? i = some '\\' ∧ src.get? (i+1) = some '\n' then
        skipAll f src (i + 2) wantNl
      else .inr i

/-- Scan `j` forward while the predicate holds (`while j < len and p(src[j])`). -/
def scanWhile : Nat → (Char → Bool) → List Char → Nat → Nat
  | 0, _, _, j => j
  | f+1, p, src, j =>
    match src.get? j with
    | some c => if p c then scanWhile f p src (j+1) else j
    | none => j

def isHexChar (c : Char) : Bool := c.isDigit || ('A' ≤ c ∧ c ≤ 'F') || ('a' ≤ c ∧ c ≤ 'f')

/-- One call of `RawTokenizer.read_token`/`__next__` in `cparser/tokenizer.py`:
returns the token together with the new index and `_want_line_break` flag, or
`none` at the end of input. -/
def rawNext (src : List Char) (i0 : Nat) (wantNl : Bool) : Option (Tok × Nat × Bool) :=
  match skipAll (src.length + 1) src i0 wantNl with
  | .inl p => some (⟨.NEWLINE, p, sl src p (p+1)⟩, p + 1, false)
  | .inr i =>
    match src.get? i with
    | none => none
    | some ch =>
      if ch = '#' then
        let j := scanWhile (src.length + 1) (· = '#') src i
        let wantNl := wantNl || ((j = i + 1) ∧ (i = 0 ∨ src.get? (i-1) = some '\n'))
        let j := scanWhile (src.length + 1) isIdentChar src j
        let text := sl src i j
        if text = cs "##__VA_ARGS__" then some (⟨.VARARGS, i, text⟩, j, wantNl)
        else some (⟨.DIRECTIVE, i, text⟩, j, wantNl)
      else if isIdentChar ch then
        let j := scanWhile (src.length + 1) (fun c => isIdentChar c || c.isDigit) src i
        some (⟨.IDENTIFIER, i, sl src i j⟩, j, wantNl)
      else if ch = '0' ∧ i + 2 < src.length ∧
          (src.get? (i+1) = some 'X' ∨ src.get? (i+1) = some 'x') ∧
          (src.get? (i+2)).any Char.isDigit then
        let j := scanWhile (src.length + 1) isHexChar src (i+2)
        some (⟨.NUMBER, i, sl src i j⟩, j, wantNl)
      else if ch.isDigit then
        let j := scanWhile (src.length + 1) Char.isDigit src i
        if j + 1 < src.length ∧ src.get? j = some '.' then
          let j := scanWhile (src.length + 1) Char.isDigit src (j+1)
          some (⟨.NUMBER, i, sl src i j⟩, j, wantNl)
        else some (⟨.NUMBER, i, sl src i j⟩, j, wantNl)
      else if ch = '.' ∧ (src.get? (i+1)).any Char.isDigit then
        let j := scanWhile (src.length + 1) Char.isDigit src (i+1)
        some (⟨.NUMBER, i, sl src i j⟩, j, wantNl)
      else if ch = '"' ∨ ch = Char.ofNat 39 then
        let j := strEnd (src.length + 1) ch src (i+1)
        some (⟨.STRING, i, sl src i j⟩, j, wantNl)
      else
        match src.get? i, src.get? (i+1), src.get? (i+2) with
        | some c, some d, some e =>
          match triple3 c d e with
          | some k => some (⟨k, i, sl src i (i+3)⟩, i+3, wantNl)
          | none => rawSym src i wantNl c (some d)
        | some c, some d, none => rawSym src i wantNl c (some d)
        | some c, none, _ => rawSym src i wantNl c none
        | none, _, _ => none
where
  /-- The string-literal scan of `read_token` (backslash escapes two chars). -/
  strEnd : Nat → Char → List Char → Nat → Nat
    | 0, _, _, i => i
    | f+1, q, src, i =>
      match src.get? i with
      | some c =>
        if c = q then i + 1
        else if c = '\\' ∧ i + 1 < src.length then strEnd f q src (i+2)
        else strEnd f q src (i+1)
      | none => i
  /-- Double-, single-character symbols and the `SYMBOL` fallback. -/
  rawSym (src : List Char) (i : Nat) (wantNl : Bool) (c : Char) (d? : Option Char) :
      Option (Tok × Nat × Bool) :=
    match d? with
    | some d =>
      match double2 c d with
      | some k => some (⟨k, i, sl src i (i+2)⟩, i+2, wantNl)
      | none =>
        match single1 c with
        | some k => some (⟨k, i, sl src i (i+1)⟩, i+1, wantNl)
        | none => some (⟨.SYMBOL, i, sl src i (i+1)⟩, i+1, wantNl)
    | none =>
      match single1 c with
      | some k => some (⟨k, i, sl src i (i+1)⟩, i+1, wantNl)
      | none => some (⟨.SYMBOL, i, sl src i (i+1)⟩, i+1, wantNl)

/-- Iterated `RawTokenizer.__next__`: all raw tokens of a source. -/
def rawTokens : Nat → List Char → Nat → Bool → List Tok
  | 0, _, _, _ => []
  | f+1, src, i, wantNl =>
    match rawNext src i wantNl with
    | none => []
    | some (t, i', w') => t :: rawTokens f src i' w'

/-- All raw tokens of a source (class `RawTokenizer` driven to exhaustion). -/
def rawLex (src : List Char) : List Tok := rawTokens (src.length + 1) src 0 false

/-- A C macro: mirror of class `Macro` in `cparser/tokenizer.py` after
`__init__` has run.  `margs` is `None` exactly when the Python constructor
received `args=None` (a bare `#define NAME`); `varArgs` and the trimming of a
trailing `...` mirror the constructor body. -/
structure Macro where
  mname : List Char
  margs : Option (List (List Char))
  varArgs : Bool
  body : List Tok
  deriving DecidableEq, Repr

/-- `Macro.__init__`: compute `var_args` and trim the trailing `...`. -/
def mkMacro (name : List Char) (args : Option (List (List Char))) (body : List Tok) : Macro :=
  match args with
  | none => ⟨name, none, false, body⟩
  | some as =>
    if as ≠ [] ∧ as.getLast? = some (cs "...") then ⟨name, some as.dropLast, true, body⟩
    else ⟨name, some as, false, body⟩

/-- Python-`dict` lookup on an association list. -/
def alGet {V : Type} (m : List (List Char × V)) (k : List Char) : Option V :=
  match m with
  | [] => none
  | (k', v) :: rest => if k' = k then some v else alGet rest k

/-- Python-`dict` assignment: replace in place if the key exists, append
otherwise (insertion order preserved, as for Python dicts). -/
def alPut {V : Type} (m : List (List Char × V)) (k : List Char) (v : V) :
    List (List Char × V) :=
  match m with
  | [] => [(k, v)]
  | (k', v') :: rest => if k' = k then (k, v) :: rest else (k', v') :: alPut rest k v

/-- The mutable state of class `Tokenizer` in `cparser/tokenizer.py`, plus the
not-yet-consumed raw token stream.  The Python `if_stack` keeps its top at the
end of the list; here the top is the head. -/
structure TState where
  raw : List Tok
  cache : List Tok
  ifStack : List Bool
  macros : List (List Char × Macro)
  deriving DecidableEq, Repr

/-- `len(self.if_stack) == 0 or self.if_stack[-1]` in `Tokenizer.__next__`. -/
def visible : List Bool → Bool
  | [] => true
  | b :: _ => b

/-- The directive-line read loop of `Tokenizer.__next__`: raw tokens up to
(and consuming) the first NEWLINE.  `none` models the `StopIteration` raised
when the raw stream ends first. -/
def readLine : List Tok → Option (List Tok × List Tok)
  | [] => none
  | t :: rest =>
    if t.kind = .NEWLINE then some ([], rest)
    else match readLine rest with
      | none => none
      | some (line, rest') => some (t :: line, rest')

/-- The Python `eval(text)` applied to the single token of an `#if` line,
modelled for decimal integer literals — per the module docstring of
`cparser/tokenizer.py`, "`#if` statements only support single integers"; any
other text is modelled as an error. -/
def evalPy (t : List Char) : Option Bool :=
  if t ≠ [] ∧ t.all Char.isDigit ∧ (t = cs "0" ∨ t.head? ≠ some '0') then
    some (t ≠ cs "0" ∧ ¬ t.all (· = '0'))
  else none

/-- Python `line[2:i:2]` stepping: every other element. -/
def everyOther {α : Type} : List α → List α
  | [] => []
  | [a] => [a]
  | a :: _ :: r => a :: everyOther r

/-- Bracket-depth update used by `Macro.apply`'s `read_arg` and var-args
loops. -/
def levelDelta (t : Tok) : Int :=
  if t.kind = .LEFT_PAR ∨ t.kind = .LEFT_BRACKET then 1
  else if t.kind = .RIGHT_PAR ∨ t.kind = .RIGHT_BRACKET then -1
  else 0

/-- Result of one `Tokenizer.__next__` call: a token with the successor state
and the remaining fuel, the end of the stream (`StopIteration`), a Python
exception, or fuel exhaustion (standing in for non-termination /
`RecursionError` on self-expanding macros). -/
inductive Step where
  | tok (t : Tok) (s : TState) (rem : Nat)
  | done (s : TState)
  | err
  | fuelOut
  deriving DecidableEq, Repr

/-- Result of `Macro.apply`. -/
inductive ARes where
  | ok (ts : List Tok) (s : TState)
  | adone (s : TState)
  | aerr
  | afuel
  deriving DecidableEq, Repr

/-- Result of `read_arg` inside `Macro.apply`. -/
inductive RRes where
  | ok (toks : List Tok) (nxt : Tok) (s : TState)
  | rdone (s : TState)
  | rerr
  | rfuel
  deriving DecidableEq, Repr

/-- Result of the formal-parameter capture loop of `Macro.apply`. -/
inductive CRes where
  | ok (binds : List (List Char × List Tok)) (nxt : Tok) (s : TState)
  | cdone (s : TState)
  | cerr
  | cfuel
  deriving DecidableEq, Repr

/-- Result of the var-args capture loop of `Macro.apply`. -/
inductive VRes where
  | ok (toks : List Tok) (s : TState)
  | vdone (s : TState)
  | verr
  | vfuel
  deriving DecidableEq, Repr

/-- The substitution loop closing `Macro.apply`: body tokens, with bound
formals spliced in and `##__VA_ARGS__` replaced by the var-args tokens. -/
def substBody (body : List Tok) (binds : List (List Char × List Tok))
    (varArgs : List Tok) : List Tok :=
  match body with
  | [] => []
  | t :: rest =>
    (match t.kind, alGet binds t.text with
     | .IDENTIFIER, some ts => ts
     | .VARARGS, _ => varArgs
     | _, _ => [t]) ++ substBody rest binds varArgs

mutual

/-- `Tokenizer.__next__` of `cparser/tokenizer.py`. -/
def nextTok : Nat → TState → Step
  | 0, _ => .fuelOut
  | f+1, s =>
    match s.cache with
    | t :: rest => visPart f t { s with cache := rest }
    | [] =>
      match s.raw with
      | [] => .done s
      | t :: raw1 =>
        if t.kind = .DIRECTIVE then
          match readLine raw1 with
          | none => .done { s with raw := [] }
          | some (line, raw2) => handleDirective f t line { s with raw := raw2 }
        else visPart f t { s with raw := raw1 }
  termination_by structural f _ => f

/-- The closing part of `Tokenizer.__next__`: the visibility test against the
conditional stack, then keyword / `NULL` / macro treatment of identifiers. -/
def visPart : Nat → Tok → TState → Step
  | 0, _, _ => .fuelOut
  | f+1, t, s =>
    if visible s.ifStack then
      if t.kind = .IDENTIFIER then
        match alGet s.macros t.text with
        | some m =>
          match applyMacro f m s with
          | .ok ts s1 => nextTok f { s1 with cache := ts ++ s1.cache }
          | .adone s1 => .done s1
          | .aerr => .err
          | .afuel => .fuelOut
        | none =>
          if t.text ∈ KEYWORDS then .tok ⟨.KEYWORD, t.pos, t.text⟩ s f
          else if t.text = cs "NULL" then .tok ⟨.NULL, t.pos, t.text⟩ s f
          else .tok t s f
      else .tok t s f
    else nextTok f s
  termination_by structural f _ _ => f

/-- The directive dispatch of `Tokenizer.__next__` (the
`if token_type is TokenType.DIRECTIVE` block). -/
def handleDirective : Nat → Tok → List Tok → TState → Step
  | 0, _, _, _ => .fuelOut
  | f+1, dt, line, s =>
    let texts := line.map Tok.text
    let text := texts.flatten
    if dt.text = cs "#if" then
      match texts.get? 0 with
      | none => .err
      | some t0 =>
        if t0 = cs "defined" then
          match texts.get? 1 with
          | none => .err
          | some t1 =>
            if t1 = cs "(" then
              match texts.get? 3 with
              | none => .err
              | some t3 =>
                if t3 = cs ")" then
                  nextTok f { s with
                    ifStack := (alGet s.macros (texts.getD 2 [])).isSome :: s.ifStack }
                else .err
            else .err
        else if line.length = 1 then
          match evalPy text with
          | some b => nextTok f { s with ifStack := b :: s.ifStack }
          | none => .err
        else .err
    else if dt.text = cs "#ifdef" then
      nextTok f { s with ifStack := (alGet s.macros text).isSome :: s.ifStack }
    else if dt.text = cs "#ifndef" then
      nextTok f { s with ifStack := (alGet s.macros text).isNone :: s.ifStack }
    else if dt.text = cs "#endif" then
      match s.ifStack with
      | [] => .err
      | _ :: rest => nextTok f { s with ifStack := rest }
    else if dt.text = cs "#else" then
      match s.ifStack with
      | [] => .err
      | b :: rest => nextTok f { s with ifStack := (!b) :: rest }
    else if dt.text = cs "#define" then
      if line.length = 1 then
        nextTok f { s with macros := alPut s.macros text (mkMacro text none []) }
      else
        match texts.get? 0, texts.get? 1 with
        | some name, some t1 =>
          if t1 = cs "(" ∧ (cs ")") ∈ texts.dropLast then
            let i := ((texts.findIdx? (· = cs ")")).getD 0) + 1
            let dtext := (texts.take i).flatten ++ cs " := " ++ (texts.drop i).flatten
            let margs := everyOther ((texts.drop 2).take (i - 2))
            let s1 := { s with macros := alPut s.macros name (mkMacro name (some margs) (line.drop i)) }
            if visible s.ifStack then .tok ⟨.DEFINE, dt.pos, dtext⟩ s1 f
            else nextTok f s1
          else
            let dtext := name ++ cs " := " ++ (texts.drop 1).flatten
            let s1 := { s with macros := alPut s.macros name (mkMacro name (some []) (line.drop 1)) }
            if visible s.ifStack then .tok ⟨.DEFINE, dt.pos, dtext⟩ s1 f
            else nextTok f s1
        | _, _ => .err
    else if dt.text = cs "#include" then
      if visible s.ifStack then .tok ⟨.INCLUDE, dt.pos, text⟩ s f
      else nextTok f s
    else nextTok f s
  termination_by structural f _ _ _ => f

/-- `Macro.apply` of `cparser/tokenizer.py`.  `margs = none` faithfully
reproduces the Python `len(self.args)` on `None`: a `TypeError`. -/
def applyMacro : Nat → Macro → TState → ARes
  | 0, _, _ => .afuel
  | f+1, m, s =>
    match m.margs with
    | none => .aerr
    | some margs =>
      if margs.length > 0 then
        match nextTok f s with
        | .fuelOut => .afuel
        | .done s1 => .adone s1
        | .err => .aerr
        | .tok nxt s1 _ =>
          if nxt.kind = .LEFT_PAR then
            match captureArgs f margs [] ⟨.COMMA, 0, []⟩ s1 with
            | .cfuel => .afuel
            | .cdone s2 => .adone s2
            | .cerr => .aerr
            | .ok binds nxt2 s2 =>
              if m.varArgs ∧ nxt2.kind = .COMMA then
                match readVarArgs f 0 [] s2 with
                | .vfuel => .afuel
                | .vdone s3 => .adone s3
                | .verr => .aerr
                | .ok collected s3 =>
                  match collected.getLast? with
                  | none => .aerr
                  | some nxt3 =>
                    if nxt3.kind = .RIGHT_PAR then
                      .ok (substBody m.body binds collected.dropLast) s3
                    else .aerr
              else
                if nxt2.kind = .RIGHT_PAR then .ok (substBody m.body binds []) s2
                else .aerr
          else .aerr
      else .ok (substBody m.body [] []) s
  termination_by structural f _ _ => f

/-- The `for arg in self.args` capture loop of `Macro.apply`. -/
def captureArgs : Nat → List (List Char) → List (List Char × List Tok) → Tok → TState → CRes
  | 0, _, _, _, _ => .cfuel
  | f+1, formals, binds, nxt, s =>
    match formals with
    | [] => .ok binds nxt s
    | a :: rest =>
      if nxt.kind = .COMMA then
        match readArg f s with
        | .rfuel => .cfuel
        | .rdone s1 => .cdone s1
        | .rerr => .cerr
        | .ok toks nxt2 s1 => captureArgs f rest (alPut binds a toks) nxt2 s1
      else .cerr
  termination_by structural f _ _ _ _ => f

/-- `read_arg` of `Macro.apply`: first token then the collection loop. -/
def readArg : Nat → TState → RRes
  | 0, _ => .rfuel
  | f+1, s =>
    match nextTok f s with
    | .fuelOut => .rfuel
    | .done s1 => .rdone s1
    | .err => .rerr
    | .tok t s1 _ => readArgLoop f [] 0 t s1
  termination_by structural f _ => f

/-- The `while not (level == 0 and ...)` loop of `read_arg`. -/
def readArgLoop : Nat → List Tok → Int → Tok → TState → RRes
  | 0, _, _, _, _ => .rfuel
  | f+1, acc, level, t, s =>
    if level = 0 ∧ (t.kind = .COMMA ∨ t.kind = .RIGHT_PAR) then .ok acc.reverse t s
    else
      match nextTok f s with
      | .fuelOut => .rfuel
      | .done s1 => .rdone s1
      | .err => .rerr
      | .tok t2 s2 _ => readArgLoop f (t :: acc) (level + levelDelta t) t2 s2
  termination_by structural f _ _ _ _ => f

/-- The `while level >= 0` var-args loop of `Macro.apply`. -/
def readVarArgs : Nat → Int → List Tok → TState → VRes
  | 0, _, _, _ => .vfuel
  | f+1, level, acc, s =>
    if level ≥ 0 then
      match nextTok f s with
      | .fuelOut => .vfuel
      | .done s1 => .vdone s1
      | .err => .verr
      | .tok t s1 _ => readVarArgs f (level + levelDelta t) (t :: acc) s1
    else .ok acc.reverse s
  termination_by structural f _ _ _ => f

end

/-- Outcome of running the tokenizer to exhaustion. -/
inductive Outcome where
  | ok
  | err
  | fuelOut
  deriving DecidableEq, Repr

/-- Iterated `Tokenizer.__next__`: collect the emitted tokens until the stream
ends, an exception is raised, or fuel runs out.  The first argument bounds the
number of emitted tokens; the second is the fuel handed to `nextTok`, each
call resuming with the fuel the previous call left over. -/
def runTk : Nat → Nat → TState → List Tok × Outcome × TState
  | 0, _, s => ([], .fuelOut, s)
  | n+1, f, s =>
    match nextTok f s with
    | .tok t s1 rem => let p := runTk n rem s1; (t :: p.1, p.2)
    | .done s1 => ([], .ok, s1)
    | .err => ([], .err, s)
    | .fuelOut => ([], .fuelOut, s)

/-- The trailing-newline normalisation of `Tokenizer.__init__`:
`if len(source) > 0 and source[-1] != '\n': source += '\n'`. -/
def normalizeSrc (src : List Char) : List Char :=
  if src.length > 0 ∧ src.getLast? ≠ some '\n' then src ++ ['\n'] else src

/-- Fuel budget used to drive the token machine on a given source. -/
def tokFuel (src : List Char) : Nat := 16 * (src.length + 16)

/-- The initial `Tokenizer` state over a raw token stream, with no inherited
macros. -/
def initSt (raws : List Tok) : TState := ⟨raws, [], [], []⟩

/-- The initial `Tokenizer` state with an inherited macro table (the
`macros` constructor argument of class `Tokenizer`). -/
def initStM (raws : List Tok) (macros : List (List Char × Macro)) : TState :=
  ⟨raws, [], [], macros⟩

/-- Full tokenization of a source string: `Tokenizer(source)` driven to
exhaustion — normalisation, raw lexing, then the preprocessor machine. -/
def tokenize (src : List Char) : List Tok × Outcome × TState :=
  let n := normalizeSrc src
  runTk (tokFuel n) (tokFuel n) (initSt (rawLex n))

/-- Full tokenization with an inherited macro table; also returns the final
state, whose `macros` component is the (shared, mutated) macro dictionary. -/
def tokenizeM (src : List Char) (macros : List (List Char × Macro)) :
    List Tok × Outcome × TState :=
  let n := normalizeSrc src
  runTk (tokFuel n) (tokFuel n) (initStM (rawLex n) macros)

/-- The token stream a `Tokenizer` yields for a source. -/
def tokOut (src : List Char) : List Tok := (tokenize src).1

/-- How the run ended: clean exhaustion, a Python exception, or fuel out. -/
def tokRes (src : List Char) : Outcome := (tokenize src).2.1

/-! ### Conditional-region bookkeeping over the raw token stream

These definitions only serve to *state* the conditional-visibility claim:
which directives open and close `#if`-regions, when a stream is balanced, and
which `#endif` matches a given conditional. -/

/-- A directive token that pushes onto the conditional stack. -/
def isCondPush (t : Tok) : Bool :=
  t.kind = .DIRECTIVE ∧ (t.text = cs "#if" ∨ t.text = cs "#ifdef" ∨ t.text = cs "#ifndef")

/-- An `#endif` directive token. -/
def isEndif (t : Tok) : Bool := t.kind = .DIRECTIVE ∧ t.text = cs "#endif"

/-- Balance check for the conditional directives of a raw stream. -/
def condBalancedFrom : List Tok → Nat → Bool
  | [], d => d = 0
  | t :: r, d =>
    if isCondPush t then condBalancedFrom r (d+1)
    else if isEndif t then d > 0 ∧ condBalancedFrom r (d-1)
    else condBalancedFrom r d

/-- A raw stream whose conditional directives nest and balance. -/
def condBalanced (ts : List Tok) : Bool := condBalancedFrom ts 0

/-- Index (into the original stream) of the `#endif` matching the conditional
directive at index `i`, scanning a tail that starts at index `j`. -/
def matchEndifAux : List Tok → Nat → Nat → Option Nat
  | [], _, _ => none
  | t :: r, j, d =>
    if isEndif t then (if d = 0 then some j else matchEndifAux r (j+1) (d-1))
    else if isCondPush t then matchEndifAux r (j+1) (d+1)
    else matchEndifAux r (j+1) d

/-- The matching `#endif` for the conditional directive at index `i`. -/
def matchEndif (ts : List Tok) (i : Nat) : Option Nat :=
  matchEndifAux (ts.drop (i+1)) (i+1) 0

/-- The raw token at index `i` starts an `#if 0` directive line: the directive
itself, the literal `0`, then the end of the directive line. -/
def ifZeroAt (ts : List Tok) (i : Nat) : Bool :=
  (ts.get? i).any (fun t => t.kind = .DIRECTIVE ∧ t.text = cs "#if") ∧
  (ts.get? (i+1)).any (fun t => t.kind ≠ .NEWLINE ∧ t.text = cs "0") ∧
  (ts.get? (i+2)).any (fun t => t.kind = .NEWLINE)

/-- Claim C1 as stated, at one source: if the conditional directives are
balanced, then no non-directive raw token strictly between an `#if 0` and its
matching `#endif` — nested regions included — appears in the output stream. -/
def claimC1At (src : List Char) : Prop :=
  condBalanced (rawLex (normalizeSrc src)) = true →
  ∀ i j k t, ifZeroAt (rawLex (normalizeSrc src)) i = true →
    matchEndif (rawLex (normalizeSrc src)) i = some j →
    i < k → k < j → (rawLex (normalizeSrc src)).get? k = some t →
    t.kind ≠ .DIRECTIVE → t ∉ tokOut src

/-! ### The C-to-Java type translator (`codegen/java_type_converter.py`) -/

/-- The built-in `type_map` of `codegen/java_type_converter.py`. -/
def type_map : List (List Char × List Char) :=
  [(cs "char", cs "char"),
   (cs "char*", cs "String"),
   (cs "const char*", cs "String"),
   (cs "double", cs "double"),
   (cs "double*", cs "Double"),
   (cs "float", cs "float"),
   (cs "float*", cs "Float"),
   (cs "int", cs "int"),
   (cs "int*", cs "Integer"),
   (cs "long", cs "int"),
   (cs "long*", cs "Integer"),
   (cs "long long", cs "long"),
   (cs "long long*", cs "Long"),
   (cs "size_t", cs "int"),
   (cs "void*", cs "Object"),
   (cs "Py_ssize_t", cs "int"),
   (cs "constant", cs "Object"),
   (cs "identifier", cs "String"),
   (cs "string", cs "String")]

/-- `default_Java_object` of `codegen/java_type_converter.py`. -/
def default_Java_object : List Char := cs "Object"

/-- Python `str.title()` (ASCII): uppercase a letter that follows a non-cased
character, lowercase a letter that follows a cased one. -/
def pyTitleGo : List Char → Bool → List Char
  | [], _ => []
  | c :: r, prevCased =>
    if c.isAlpha then (if prevCased then c.toLower else c.toUpper) :: pyTitleGo r true
    else c :: pyTitleGo r false

/-- Python `str.title()`. -/
def pyTitle (s : List Char) : List Char := pyTitleGo s false

/-- Python `s.replace('_', '')`. -/
def remUnd (s : List Char) : List Char := s.filter (· ≠ '_')

/-- Python `s.lower()` (ASCII). -/
def lowerL (s : List Char) : List Char := s.map Char.toLower

/-- Python `s.strip()` for the space-separated pieces handled here. -/
def stripWs (s : List Char) : List Char :=
  ((s.dropWhile (· ≤ ' ')).reverse.dropWhile (· ≤ ' ')).reverse

/-- First index of element `c`, as Python `s.index`/`s.find` (as `Option`). -/
def findIdxOf (s : List Char) (c : Char) : Option Nat := s.findIdx? (· = c)

/-- `translate` of `codegen/java_type_converter.py` (the single-string case of
its dispatch; the `is_seq` flag and list arguments are handled by the callers
modelled here).  The mutation of the diagnostic set `unknown_types` is
dropped; `none` models the `ValueError` that `c_type.index(')', idx_2+1)` can
raise on a malformed compound type. -/
def translateF : Nat → List Char → Option (List Char)
  | 0, _ => none
  | f+1, c =>
    match alGet type_map c with
    | some j =>
      if j ≠ [] then some j else translateRest f c
    | none => translateRest f c
where
  translateRest : Nat → List Char → Option (List Char)
  | 0, _ => none
  | f+1, c =>
    if c = [] then some default_Java_object
    else if (cs "_seq*").isSuffixOf c then
      (translateF f (c.dropLast.dropLast.dropLast.dropLast.dropLast)).map (· ++ cs "[]")
    else if (cs "[]").isSuffixOf c then
      (translateF f (c.dropLast.dropLast)).map (· ++ cs "[]")
    else if (cs "asdl_").isPrefixOf c then translateF f (c.drop 5)
    else if (cs "_ty").isSuffixOf c then
      translateF f (c.dropLast.dropLast.dropLast)
    else if (cs "*").isSuffixOf c then translateF f c.dropLast
    else if (cs "signed ").isPrefixOf c ∨ (cs "unsigned ").isPrefixOf c then
      match findIdxOf c ' ' with
      | some i => translateF f (c.drop (i+1))
      | none => none
    else if '(' ∈ c ∧ ')' ∈ c then
      match findIdxOf c '(', findIdxOf c ')' with
      | some i1, some i2 =>
        if i1 = 0 ∧ i2 = c.length - 1 then translateF f ((c.drop 1).dropLast)
        else if i1 > 0 ∧ i2 = c.length - 1 then
          match translateF f (c.take i1),
              traverseTr f (((sl c (i1+1) (c.length - 1)).splitOn ',').map stripWs) with
          | some fn, some args => some (fn ++ cs "(" ++ (joinSep (cs ", ") args) ++ cs ")")
          | _, _ => none
        else if i1 = 0 ∧ c.get? (i2+1) = some '(' ∧
            (findIdxOf (c.drop (i2+1)) ')').map (· + i2 + 1) = some (c.length - 1) then
          match translateF f (sl c 1 i2),
              traverseTr f (((sl c (i2+2) (c.length - 1)).splitOn ',').map stripWs) with
          | some fn, some args => some (fn ++ cs "(" ++ (joinSep (cs ", ") args) ++ cs ")")
          | _, _ => none
        else if i1 = 0 ∧ c.get? (i2+1) = some '(' ∧
            (findIdxOf (c.drop (i2+1)) ')') = none then none
        else some default_Java_object
      | _, _ => none
    else some (remUnd (pyTitle c))
  /-- `translate` mapped over the comma-split argument types. -/
  traverseTr : Nat → List (List Char) → Option (List (List Char))
  | 0, _ => none
  | _+1, [] => some []
  | f+1, a :: r =>
    match translateF f a, traverseTr f r with
    | some a', some r' => some (a' :: r')
    | _, _ => none
  /-- Python `', '.join(...)`. -/
  joinSep (sep : List Char) : List (List Char) → List Char
  | [] => []
  | [a] => a
  | a :: r => a ++ sep ++ joinSep sep r

/-- `translate` with its fuel budget (the recursion shortens the type string
at every step, so the length suffices). -/
def translateTy (c : List Char) : Option (List Char) := translateF (c.length + 1) c

/-! ### Call-rewrite parameter correspondence
(`translate_call` of `codegen/java_type_converter.py`, lines 199–266) -/

/-- Python `s.rfind(c)`: index of the last occurrence, `-1` when absent. -/
def rfindI (s : List Char) (c : Char) : Int :=
  match s.reverse.findIdx? (· = c) with
  | some k => (s.length : Int) - 1 - k
  | none => -1

/-- The `splt` lambda of `separate_names_and_types`: split a declaration such
as `"int simple"` at the last space or star into `(name, type)`. -/
def splt (s : List Char) : List Char × List Char :=
  let i : Int := max (rfindI s ' ') (rfindI s '*')
  ((s.drop (i + 1).toNat), stripWs (s.take (i + 1).toNat))

/-- `separate_names_and_types`: the name → type dictionary (insertion order
kept, later duplicates overwrite, as for a Python dict comprehension). -/
def sepNT (args : List (List Char)) : List (List Char × List Char) :=
  args.foldl (fun d a => alPut d (splt a).1 (splt a).2) []

/-- First matching tier of `translate_call`:
`c_name.lower().replace('_', '') == j_name.lower()`. -/
def ruleExactCI (c j : List Char) : Bool := remUnd (lowerL c) = lowerL j

/-- Second matching tier of `translate_call`:
`len(c_name) * 2 >= len(j_name) and (c_name.lower() in j_name.lower() or
c_name.lower().replace('_','') in j_name.lower())`. -/
def ruleCoverCode (c j : List Char) : Bool :=
  2 * c.length ≥ j.length ∧
    (decide (lowerL c <:+: lowerL j) ∨ decide (remUnd (lowerL c) <:+: lowerL j))

/-- The substring-coverage rule as the specification sentence words it: the
*shorter* of the two names is at least half the longer one's length and is
contained in it.  Used only to state claim C4. -/
def claimCover (c j : List Char) : Bool :=
  let a := lowerL c
  let b := lowerL j
  if a.length ≤ b.length then 2 * a.length ≥ b.length ∧ decide (a <:+: b)
  else 2 * b.length ≥ a.length ∧ decide (b <:+: a)

/-- The `for j_name in j_arg_names` correspondence loop of `translate_call`:
threads the (mutated) `c_arg_dict` and `c_arg_names`; an unmatched target
parameter raises a `TypeError` whose message names the call and the
parameter, modelled as the `(c_func, j_name)` payload. -/
def matchLoopCode (cfunc : List Char) (cdict : List (List Char × List Char))
    (cnames : List (List Char)) :
    List (List Char) →
      Except (List Char × List Char) (List (List Char × List Char) × List (List Char))
  | [] => .ok (cdict, cnames)
  | j :: js =>
    if j ∈ cnames then matchLoopCode cfunc cdict cnames js
    else
      match cnames.findIdx? (fun c => ruleExactCI c j) with
      | some i =>
        matchLoopCode cfunc (alPut cdict j ((alGet cdict (cnames.getD i [])).getD []))
          (cnames.set i j) js
      | none =>
        match cnames.findIdx? (fun c => ruleCoverCode c j) with
        | some i =>
          matchLoopCode cfunc (alPut cdict j ((alGet cdict (cnames.getD i [])).getD []))
            (cnames.set i j) js
        | none => .error (cfunc, j)

/-- The correspondence phase of `translate_call` on a freshly registered
rewrite (`len(m) == 3`): extract the names from both declaration lists and
run the matching loop. -/
def translateCallMatch (cfunc : List Char) (cargs jargs : List (List Char)) :
    Except (List Char × List Char)
      (List (List Char × List Char) × List (List Char) × List (List Char)) :=
  let cdict := sepNT cargs
  let jdict := sepNT jargs
  let cnames := cdict.map Prod.fst
  let jnames := jdict.map Prod.fst
  (matchLoopCode cfunc cdict cnames jnames).map (fun p => (p.1, p.2, jnames))

/-- Whether `translateCallMatch` raises. -/
def tcmRaises (cfunc : List Char) (cargs jargs : List (List Char)) : Bool :=
  match translateCallMatch cfunc cargs jargs with
  | .error _ => true
  | .ok _ => false

/-- Claim C4 as stated, at one registered rewrite: the error is raised iff
some target parameter matches no source parameter under the exact rule or the
(symmetric) coverage rule of the specification sentence. -/
def claimC4At (cfunc : List Char) (cargs jargs : List (List Char)) : Prop :=
  tcmRaises cfunc cargs jargs = true ↔
    ∃ j ∈ (sepNT jargs).map Prod.fst, ∀ c ∈ (sepNT cargs).map Prod.fst,
      ¬(j = c ∨ ruleExactCI c j = true ∨ claimCover c j = true)

/-- The sequential correspondence process in the words of the amended claim:
walk the target names in order; a target already present verbatim is kept;
otherwise the first source name matching the case/underscore-insensitive rule
is renamed to it, else the first one matching the code's (source-contained-
in-target) coverage rule; a target that matches nothing raises, naming the
call and the parameter. -/
def matchSpec (cfunc : List Char) (cnames : List (List Char)) :
    List (List Char) → Except (List Char × List Char) (List (List Char))
  | [] => .ok cnames
  | j :: js =>
    if j ∈ cnames then matchSpec cfunc cnames js
    else
      match cnames.findIdx? (fun c => ruleExactCI c j) with
      | some i => matchSpec cfunc (cnames.set i j) js
      | none =>
        match cnames.findIdx? (fun c => ruleCoverCode c j) with
        | some i => matchSpec cfunc (cnames.set i j) js
        | none => .error (cfunc, j)

/-! ### The Java code model (`codegen/javagen.py`) -/

/-- `_JAVA_KEYWORDS` of `codegen/javagen.py`. -/
def _JAVA_KEYWORDS : List (List Char) :=
  [cs "abstract", cs "continue", cs "for", cs "new", cs "switch",
   cs "assert", cs "default", cs "goto", cs "package", cs "synchronized",
   cs "boolean", cs "do", cs "if", cs "private", cs "this",
   cs "break", cs "double", cs "implements", cs "protected", cs "throw",
   cs "byte", cs "else", cs "import", cs "public", cs "throws",
   cs "case", cs "enum", cs "instanceof", cs "return", cs "transient",
   cs "catch", cs "extends", cs "int", cs "short", cs "try",
   cs "char", cs "final", cs "interface", cs "static", cs "void",
   cs "class", cs "finally", cs "long", cs "strictfp", cs "volatile",
   cs "const", cs "float", cs "native", cs "super", cs "while",
   cs "List", cs "Set", cs "Map"]

/-- `_JAVA_DEFAULT_VALUES` of `codegen/javagen.py`. -/
def _JAVA_DEFAULT_VALUES : List (List Char × List Char) :=
  [(cs "boolean", cs "false"), (cs "byte", cs "0"),
   (cs "char", ['\'', '\\', 'u', '0', '0', '0', '0', '\'']),
   (cs "double", cs "0.0d"), (cs "float", cs "0.0f"), (cs "int", cs "0"),
   (cs "long", cs "0L"), (cs "short", cs "0"), (cs "String", cs "null")]

/-- `_JAVA_DEFAULT_METHODS` of `codegen/javagen.py`. -/
def _JAVA_DEFAULT_METHODS : List (List Char) :=
  [cs "equals", cs "hashCode", cs "toString"]

/-- `_JAVA_MODIFIERS` of `codegen/javagen.py`. -/
def _JAVA_MODIFIERS : List (List Char) :=
  [cs "public", cs "protected", cs "private", cs "abstract", cs "static",
   cs "final", cs "strictfp"]

/-- `default_value_for_j_type` of `codegen/javagen.py`. -/
def default_value_for_j_type (t : List Char) : List Char :=
  (alGet _JAVA_DEFAULT_VALUES t).getD (cs "null")

/-- Class `JavaVariable` of `codegen/javagen.py` (a field or parameter). -/
structure JVar where
  name : List Char
  j_type : List Char
  init_value : Option (List Char)
  comment : Option (List Char)
  is_final : Bool
  is_static : Bool
  is_private : Bool
  is_exposed : Bool
  deriving DecidableEq, Repr

/-- A `JavaVariable` as `__init__` builds it from name and type only. -/
def mkJVar (name j_type : List Char) : JVar :=
  ⟨name, j_type, none, none, false, false, false, false⟩

/-- `JavaVariable.is_optional`: an initialisation value is present. -/
def JVar.is_optional (v : JVar) : Bool := v.init_value.isSome

/-- The `is_optional` setter: give the variable its type's default value
unless an initialisation value is already present. -/
def JVar.setOptional (v : JVar) : JVar :=
  match v.init_value with
  | none => { v with init_value := some (default_value_for_j_type v.j_type) }
  | some _ => v

/-- `JavaVariable.j_name`: append an underscore to Java keywords. -/
def JVar.j_name (v : JVar) : List Char :=
  if v.name ∈ _JAVA_KEYWORDS then v.name ++ cs "_" else v.name

/-- `JavaVariable.title_name` (`self.name.title().replace('_', '')`). -/
def JVar.title_name (v : JVar) : List Char := remUnd (pyTitle v.name)

/-- `JavaVariable.param_decl`. -/
def JVar.param_decl (v : JVar) : List Char := v.j_type ++ cs " " ++ v.j_name

/-- `JavaVariable.__str__`. -/
def JVar.strRepr (v : JVar) : List Char :=
  match v.init_value with
  | some iv =>
    if iv ≠ [] then v.j_type ++ cs " " ++ v.j_name ++ cs " = " ++ iv
    else v.j_type ++ cs " " ++ v.j_name
  | none => v.j_type ++ cs " " ++ v.j_name

/-- Python `str.replace` (all occurrences), fuelled: the scan either drops
the matched pattern (nonempty) or one character, so the length bounds it. -/
def replaceAllF : Nat → List Char → List Char → List Char → List Char
  | 0, s, _, _ => s
  | f+1, s, pat, rep =>
    match s with
    | [] => []
    | c :: rest =>
      if pat ≠ [] ∧ pat.isPrefixOf s then rep ++ replaceAllF f (s.drop pat.length) pat rep
      else c :: replaceAllF f rest pat rep

/-- Python `str.replace` (all occurrences). -/
def replaceAll (s pat rep : List Char) : List Char := replaceAllF (s.length + 1) s pat rep

/-- `get_comment` shared by `JavaVariable` and `JavaMethod` (the member
variant with two-space indent).  A comment that strips to nothing is emitted
as an empty line comment (Python would raise an `IndexError` there; no
claim involves comments). -/
def memberComment (c? : Option (List Char)) : List Char :=
  match c? with
  | none => []
  | some c =>
    if c = [] then []
    else
      let c := stripWs c
      match c.head? with
      | some '/' => cs "  " ++ c ++ cs "\n"
      | _ =>
        if '\n' ∈ c then cs "  /* " ++ replaceAll c (cs "\n") (cs "\n   * ") ++ cs "\n   */\n"
        else cs "  // " ++ c ++ cs "\n"

/-- `JavaVariable.declaration`. -/
def JVar.declaration (v : JVar) : List Char :=
  let s := if v.is_static then cs " static" else []
  let f := if v.is_final then cs " final" else []
  let p := if v.is_exposed then cs "public" else cs "private"
  memberComment v.comment ++ cs "  " ++ p ++ s ++ f ++ cs " " ++ v.strRepr ++ cs ";"

/-- `JavaVariable.getter`. -/
def JVar.getter (v : JVar) : List Char :=
  let s := if v.is_static then cs " static" else []
  cs "  public" ++ s ++ cs " " ++ v.j_type ++ cs " get" ++ v.title_name ++
    cs "() \x7b\n    return this." ++ v.j_name ++ cs ";\n  \x7d"

/-- `JavaVariable.setter`. -/
def JVar.setter (v : JVar) : List Char :=
  let s := if v.is_static then cs " static" else []
  cs "  public" ++ s ++ cs " void set" ++ v.title_name ++ cs "(" ++ v.j_type ++ cs " " ++
    v.j_name ++ cs ") \x7b\n    this." ++ v.j_name ++ cs " = " ++ v.j_name ++ cs ";\n  \x7d"

/-- `JavaVariable.is_readonly` (an alias of `is_final`). -/
def JVar.is_readonly (v : JVar) : Bool := v.is_final

/-- Python `sep.join(pieces)`. -/
def joinL (sep : List Char) : List (List Char) → List Char
  | [] => []
  | [a] => a
  | a :: r => a ++ sep ++ joinL sep r

/-- Class `JavaMethod` of `codegen/javagen.py`, after `__init__` has resolved
the return type, body and flags.  The `cls` back-reference is not stored;
the functions below take the enclosing class as an argument. -/
structure JMethod where
  name : List Char
  return_j_type : List Char
  args : List JVar
  body : Option (List (List Char))
  comment : Option (List Char)
  generics : Option (List (List Char))
  is_static : Bool
  is_public : Bool
  is_override : Bool
  deriving DecidableEq, Repr

/-- `JavaMethod.__init__` for a method of a class named `clsName`: resolve
the return type (a constructor defaults to the class name, anything else to
`void`) and the `is_override` default (`name in _JAVA_DEFAULT_METHODS`). -/
def mkJMethod (clsName name : List Char) (ret : Option (List Char))
    (args : List JVar) (body : Option (List (List Char))) : JMethod :=
  let return_j_type :=
    match ret with
    | none => if name = clsName then name else cs "void"
    | some r => r
  ⟨name, return_j_type, args, body, none, none, false, true,
    name ∈ _JAVA_DEFAULT_METHODS⟩

/-- Class `JavaClass` of `codegen/javagen.py`, restricted to the components
the claims quantify over: no package, imports, comments, interfaces,
generics or `expose_fields` hook (all at their empty defaults), and a base
that is absent or itself a `JavaClass`.  `ctorArgs`/`ctorBody` are the
`args`/`body` of the auto-created `self.constructor`, which `add` grows in
step with `fields`. -/
inductive JClass where
  | mk (name : List Char) (base : Option JClass) (fields : List JVar)
      (ctorArgs : List JVar) (ctorBody : Option (List (List Char)))
      (methods : List JMethod) (nested : List JClass)
      (modifiers : List (List Char))
  deriving Repr

def JClass.name : JClass → List Char
  | .mk n _ _ _ _ _ _ _ => n

def JClass.base : JClass → Option JClass
  | .mk _ b _ _ _ _ _ _ => b

def JClass.fields : JClass → List JVar
  | .mk _ _ fs _ _ _ _ _ => fs

def JClass.ctorArgs : JClass → List JVar
  | .mk _ _ _ ca _ _ _ _ => ca

def JClass.ctorBody : JClass → Option (List (List Char))
  | .mk _ _ _ _ cb _ _ _ => cb

def JClass.methods : JClass → List JMethod
  | .mk _ _ _ _ _ ms _ _ => ms

def JClass.nested : JClass → List JClass
  | .mk _ _ _ _ _ _ ns _ => ns

def JClass.modifiers : JClass → List (List Char)
  | .mk _ _ _ _ _ _ _ mods => mods

/-- A fresh `JavaClass(name, base)`: empty fields/methods, auto-created
constructor `JavaMethod(self, name, name)` with no args and no body. -/
def mkJClass (name : List Char) (base : Option JClass) : JClass :=
  .mk name base [] [] none [] [] []

/-- `JavaClass.has_base_class`. -/
def JClass.has_base (c : JClass) : Bool := c.base.isSome

/-- `JavaClass.all_fields`: own fields then, recursively, the base's. -/
def JClass.all_fields : JClass → List JVar
  | .mk _ none fs _ _ _ _ _ => fs
  | .mk _ (some b) fs _ _ _ _ _ => fs ++ b.all_fields

/-- `JavaClass.base_fields`. -/
def JClass.base_fields : JClass → List JVar
  | .mk _ (some b) _ _ _ _ _ _ => b.all_fields
  | .mk _ none _ _ _ _ _ _ => []

/-- The auto-created `self.constructor` (`JavaMethod(self, name, name)`),
with the args/body that `add` has accumulated. -/
def JClass.ctorMethod (c : JClass) : JMethod :=
  ⟨c.name, c.name, c.ctorArgs, c.ctorBody, none, none, false, true,
    c.name ∈ _JAVA_DEFAULT_METHODS⟩

/-- `JavaMethod.is_constructor` for a method housed in class `c`. -/
def isCtorOf (c : JClass) (m : JMethod) : Bool := m.name = c.name

/-- `JavaMethod.all_args`: the method's own arguments, extended by the base
class fields when this is a constructor of a derived class. -/
def allArgs (c : JClass) (m : JMethod) : List JVar :=
  if isCtorOf c m ∧ c.has_base then m.args ++ c.base_fields else m.args

/-- `JavaMethod._get_args`. -/
def getArgsStr (c : JClass) (m : JMethod) (n? : Option Nat) : List Char :=
  let all := allArgs c m
  if all ≠ [] then
    match n? with
    | some n =>
      if n ≤ all.length then joinL (cs ", ") ((all.take n).map JVar.param_decl)
      else joinL (cs ", ") (all.map JVar.param_decl)
    | none => joinL (cs ", ") (all.map JVar.param_decl)
  else []

/-- The `code` list that `JavaMethod._get_body` builds for a constructor with
no explicit body: the base-constructor call, then one assignment per own
argument. -/
def ctorCode (c : JClass) (m : JMethod) : List (List Char) :=
  (if c.has_base then
    [cs "super(" ++ joinL (cs ", ") (c.base_fields.map JVar.j_name) ++ cs ");"]
   else [])
  ++ m.args.map (fun a => cs "this." ++ a.j_name ++ cs " = " ++ a.j_name ++ cs ";")

/-- `JavaMethod._get_body` (the list, string and auto-constructor branches;
the `callable` branch is not representable and not used by any claim). -/
def getBody (c : JClass) (m : JMethod) : List Char :=
  match m.body with
  | some lines => cs "    " ++ joinL (cs "\n    ") lines
  | none =>
    if isCtorOf c m then cs "    " ++ joinL (cs "\n    ") (ctorCode c m) else []

/-- `JavaMethod._get_head`. -/
def getHead (c : JClass) (m : JMethod) : List Char :=
  let p := if m.is_public then cs "public " else cs "private "
  if isCtorOf c m then p ++ m.name ++ cs "(" ++ getArgsStr c m none ++ cs ")"
  else
    let s := if m.is_static then cs "static " else []
    let g := match m.generics with
      | some gs => if gs ≠ [] then cs "<" ++ joinL (cs ",") gs ++ cs "> " else []
      | none => []
    p ++ s ++ g ++ m.return_j_type ++ cs " " ++ m.name ++ cs "(" ++
      getArgsStr c m none ++ cs ")"

/-- `JavaMethod.declaration`. -/
def JMethod.declaration (c : JClass) (m : JMethod) : List Char :=
  let o := if m.is_override ∧ ¬ isCtorOf c m then cs "@Override\n  " else []
  memberComment m.comment ++ cs "  " ++ o ++ getHead c m ++ cs " \x7b\n" ++
    getBody c m ++ cs "\n  \x7d"

/-- The inner `for a in all_args` loop of `JavaMethod.get_all_declarations`
for overload number `i` (counter `j` starts at `i`): returns the parameter
declarations kept and the argument expressions forwarded, where an omitted
optional argument forwards its stored `init_value`. -/
def ovLoop : List JVar → Int → List (List Char) × List (List Char)
  | [], _ => ([], [])
  | a :: rest, j =>
    if a.is_optional then
      let j' := j - 1
      if j' < 0 then
        let pa := ovLoop rest j'
        (pa.1, a.init_value.getD (cs "None") :: pa.2)
      else
        let pa := ovLoop rest j'
        (a.param_decl :: pa.1, a.j_name :: pa.2)
    else
      let pa := ovLoop rest j
      (a.param_decl :: pa.1, a.j_name :: pa.2)

/-- The head text (`header`) an overload of `JavaMethod.get_all_declarations`
opens with. -/
def ovHead (c : JClass) (m : JMethod) : List Char :=
  let p := if m.is_public then cs "public " else cs "private"
  let s := if m.is_static then cs "static " else []
  if isCtorOf c m then p ++ s ++ m.name
  else
    let o := if m.is_override then cs "@Override\n  " else []
    let g := match m.generics with
      | some gs => if gs ≠ [] then cs "<" ++ joinL (cs ",") gs ++ cs "> " else []
      | none => []
    o ++ p ++ s ++ g ++ m.return_j_type ++ cs " " ++ m.name

/-- The forwarding call (`this(...)` / `return name(...)` / `name(...)`) an
overload of `JavaMethod.get_all_declarations` delegates to. -/
def ovFwd (c : JClass) (m : JMethod) : List Char :=
  if isCtorOf c m then cs "this"
  else (if m.return_j_type ≠ cs "void" then cs "return " else []) ++ m.name

/-- The `decls` list of `JavaMethod.get_all_declarations`: the full
implementation, then one shorter-arity overload per optional argument. -/
def getAllDeclsList (c : JClass) (m : JMethod) : List (List Char) :=
  let all := allArgs c m
  let nopt := (all.filter JVar.is_optional).length
  if all ≠ [] ∧ nopt > 0 then
    JMethod.declaration c m ::
      (List.range nopt).map (fun i =>
        let pa := ovLoop all (Int.ofNat i)
        cs "  " ++ ovHead c m ++ cs "(" ++ joinL (cs ", ") pa.1 ++ cs ") \x7b\n    " ++
          ovFwd c m ++ cs "(" ++ joinL (cs ", ") pa.2 ++ cs ");\n  \x7d")
  else [JMethod.declaration c m]

/-- `JavaMethod.get_all_declarations` (the emitted text). -/
def get_all_declarations (c : JClass) (m : JMethod) : List Char :=
  joinL (cs "\n\n") (getAllDeclsList c m)

/-- `JavaClass.add` applied to a `JavaVariable`: the state after the call and
the `KeyError` payload — the field name and the class name the error message
cites — if one is raised.  The duplicate check precedes both appends, so on
an error the class is returned untouched. -/
def JClass.addVar : JClass → JVar → JClass × Option (List Char × List Char)
  | .mk n b fs ca cb ms ns mods, v =>
    if fs.any (fun f => f.name = v.name) then
      (.mk n b fs ca cb ms ns mods, some (v.name, n))
    else
      (.mk n b (fs ++ [v]) (ca ++ [v]) cb ms ns mods, none)

/-- `JavaClass.add` applied to a `JavaMethod`. -/
def JClass.addMethod : JClass → JMethod → JClass
  | .mk n b fs ca cb ms ns mods, m => .mk n b fs ca cb (ms ++ [m]) ns mods

/-- The constructor block of `JavaClass.declaration`: present exactly when
the class has fields, own or inherited (lines 835–837 of `javagen.py`). -/
def classCtorDecls (c : JClass) : List (List Char) :=
  if c.all_fields ≠ [] then [get_all_declarations c c.ctorMethod] else []

mutual

/-- `JavaClass.declaration`: the emitted class text (for the restricted model:
no package, imports, comment, interfaces, generics, pseudo-enum values or
`expose_fields`; those assemble to empty strings in the source). -/
def JClass.declaration : JClass → List Char
  | c@(.mk name base fields _ _ methods nested modifiers) =>
    let base_str := match base with
      | some b => cs " extends " ++ b.name
      | none => []
    let pfx :=
      if modifiers ≠ [] then
        joinL (cs " ") (_JAVA_MODIFIERS.filter (· ∈ modifiers)) ++ cs " "
      else []
    let lines :=
      [pfx ++ cs "class " ++ name ++ base_str ++ cs " \x7b"]
      ++ fields.map JVar.declaration
      ++ [[]]
      ++ (if nested.isEmpty then []
          else [[]] ++ JClass.nestedDecls nested)
      ++ (if c.all_fields ≠ [] then [get_all_declarations c c.ctorMethod, []] else [])
      ++ (fields.filter (fun f => ¬ f.is_private ∧ ¬ f.is_exposed)).flatMap
          (fun f => f.getter :: (if ¬ f.is_readonly then [f.setter] else []))
      ++ methods.map (get_all_declarations c)
      ++ [cs "\x7d"]
    joinL (cs "\n") lines

/-- The nested-class lines of `JavaClass.declaration` (its
`for cls in self.classes` loop). -/
def JClass.nestedDecls : List JClass → List (List Char)
  | [] => []
  | n :: rest =>
    [cs "  " ++ replaceAll n.declaration (cs "\n") (cs "\n  "), []] ++
      JClass.nestedDecls rest

end

/-- Number of (possibly overlapping) occurrences of a pattern in a string. -/
def countSub (pat : List Char) : List Char → Nat
  | [] => 0
  | s@(_ :: rest) =>
    (if pat ≠ [] ∧ pat.isPrefixOf s then 1 else 0) + countSub pat rest

/-- The head every generated constructor of class `c` opens with. -/
def genCtorHead (c : JClass) : List Char := cs "public " ++ c.name ++ cs "("

/-- Claim C6 as stated, at one class: a class with fields (own or inherited)
and no explicitly supplied constructor body emits exactly one generated
constructor. -/
def claimC6At (c : JClass) : Prop :=
  c.all_fields ≠ [] → c.ctorBody = none →
  countSub (genCtorHead c) c.declaration = 1

/-! ### The C AST (`cparser/ast.py`) and parser (`cparser/parser.py`) -/

/-- The tagged node set of `cparser/ast.py`.  Python `None` appearing in a
node position (absent initialisers, `else`-less `if`s, the `None` that
`parse_stmt` can fall through to) is the explicit `NoneV`; a `str`-or-`None`
field stays an `Option`. -/
inductive CAst where
  | ArrayType (type : CAst) (dimension : List Char)
  | BaseType (bname : List Char)
  | ConstType (type : CAst)
  | EnumType (names : List (List Char))
  | FuncType (return_type : CAst) (params : List CAst)
  | PointerType (base : CAst)
  | StructType (sname : Option (List Char)) (fields : List CAst)
  | AddressOf (value : CAst)
  | Assignment (target : CAst) (source : CAst)
  | Attribute (value : CAst) (aname : List Char)
  | AugAssignment (target : CAst) (op : List Char) (source : CAst)
  | BinOp (left : CAst) (op : List Char) (right : CAst)
  | Body (stmts : List CAst)
  | Break
  | Call (func : CAst) (args : List CAst)
  | Case (label : CAst) (stmts : List CAst)
  | Comparison (left : CAst) (op : List Char) (right : CAst)
  | Const (value : List Char)
  | ConstArray (values : List CAst)
  | Continue
  | Deref (value : CAst)
  | Decorated (decor : List Char) (decl : CAst)
  | DoWhile (test : CAst) (body : CAst)
  | EllipsisArg
  | EmptyStatement
  | Expression (expr : CAst)
  | For (init : CAst) (test : CAst) (incr : CAst) (body : CAst)
  | FunctionDecl (type : CAst) (fname : List Char) (params : List CAst) (body : CAst)
  | Goto (target : List Char)
  | If (test : CAst) (body : CAst) (orelse : CAst)
  | IfExpr (test : CAst) (body : CAst) (orelse : CAst)
  | Label (lname : List Char)
  | Name (value : List Char)
  | Return (expr : CAst)
  | SizeOf (target : CAst)
  | Subscript (value : CAst) (index : CAst)
  | Switch (subject : CAst) (cases : List CAst)
  | TypeCast (type : CAst) (value : CAst)
  | TypeDecl (type : CAst) (tname : List Char)
  | UnaryOp (op : List Char) (value : CAst)
  | UnarySuffixOp (op : List Char) (value : CAst)
  | VarDecl (type : CAst) (names : Option (List (List Char × CAst)))
  | While (test : CAst) (body : CAst)
  | NoneV
  deriving Repr

/-- `VarDecl(type, names)` for a plain string name. -/
def mkVarDeclStr (type : CAst) (name : List Char) : CAst :=
  .VarDecl type (some [(name, .NoneV)])

/-- A parse failure: `SyntaxError` (and the `TypeError` of unpacking an
exhausted `next()`) share one marker; `pfuel` is fuel exhaustion. -/
inductive PErr where
  | syn
  | pfuel
  deriving DecidableEq, Repr

/-- The mutable state of class `Parser` in `cparser/parser.py`: the eagerly
tokenized stream, the cursor, and the known-type-name and struct-tag sets
(Python sets, modelled as membership lists). -/
structure PState where
  ptoks : List Tok
  pidx : Nat
  ptypes : List (List Char)
  pstructs : List (List Char)
  deriving Repr

/-- The primitive seed of `Parser.__init__`:
`{'char', 'double', 'float', 'int', 'long', 'short', 'unsigned', 'void'}`. -/
def parserPrims : List (List Char) :=
  [cs "char", cs "double", cs "float", cs "int", cs "long", cs "short",
   cs "unsigned", cs "void"]

/-- Python `set.add`, on a membership list. -/
def setAdd (l : List (List Char)) (x : List Char) : List (List Char) :=
  if x ∈ l then l else l ++ [x]

/-- Python `set.update` / `a | b`, on membership lists. -/
def setUnion (a b : List (List Char)) : List (List Char) :=
  a ++ b.filter (fun x => ¬ x ∈ a)

def pCur (s : PState) : Option Tok := s.ptoks.get? s.pidx

def pAdv (s : PState) : PState := { s with pidx := s.pidx + 1 }

/-- `Parser.match(token_type)`. -/
def pMatch (tt : TType) (s : PState) : Bool × PState :=
  match pCur s with
  | some t => if t.kind = tt then (true, pAdv s) else (false, s)
  | none => (false, s)

/-- `Parser.match(token_type, value)`. -/
def pMatchV (tt : TType) (v : List Char) (s : PState) : Bool × PState :=
  match pCur s with
  | some t => if t.kind = tt ∧ t.text = v then (true, pAdv s) else (false, s)
  | none => (false, s)

/-- `Parser.next()`. -/
def pNextT (s : PState) : Option Tok × PState :=
  match pCur s with
  | some t => (some t, pAdv s)
  | none => (none, s)

/-- `Parser.peek(index)`. -/
def pPeekK (s : PState) (off : Nat) : Option TType :=
  (s.ptoks.get? (s.pidx + off)).map Tok.kind

/-- `Parser.peek_value(index)`. -/
def pPeekV (s : PState) (off : Nat) : Option (List Char) :=
  (s.ptoks.get? (s.pidx + off)).map Tok.text

/-- `Parser.peek_seq(count)`. -/
def pPeekSeq (s : PState) (count : Nat) : List TType :=
  if s.pidx < s.ptoks.length then ((s.ptoks.drop s.pidx).take count).map Tok.kind
  else []

/-- `Parser.has_next()`. -/
def pHasNext (s : PState) : Bool := s.pidx < s.ptoks.length

/-- `Parser.next_name()`: the next token's text, which must be an
identifier. -/
def pNextName (s : PState) : Except PErr (List Char × PState) :=
  match pNextT s with
  | (some t, s') => if t.kind = .IDENTIFIER then .ok (t.text, s') else .error .syn
  | (none, _) => .error .syn

mutual

/-- `Parser.parse()`. -/
def parseTop : Nat → PState → Except PErr (CAst × PState)
  | 0, _ => .error .pfuel
  | f+1, s => do
    let (stmts, s) ← parseTopLoop f [] s
    return (.Body stmts, s)

/-- The `while self.has_next()` loop of `Parser.parse()`. -/
def parseTopLoop : Nat → List CAst → PState → Except PErr (List CAst × PState)
  | 0, _, _ => .error .pfuel
  | f+1, acc, s =>
    if pHasNext s then
      if pPeekK s 0 = some .DEFINE ∨ pPeekK s 0 = some .INCLUDE then
        parseTopLoop f acc (pNextT s).2
      else do
        let (d, s) ← parseDecl f s
        parseTopLoop f (acc ++ [d]) s
    else .ok (acc, s)
  termination_by structural f _ _ => f

/-- `Parser.parse_decl()`. -/
def parseDecl : Nat → PState → Except PErr (CAst × PState)
  | 0, _ => .error .pfuel
  | f+1, s =>
    match pMatchV .KEYWORD (cs "typedef") s with
    | (true, s) => do
      let (tp, s) ← parseType f s
      let (name, s) ← pNextName s
      let s := { s with ptypes := setAdd s.ptypes name }
      let (_, s) := pMatch .SEMICOLON s
      return (.TypeDecl tp name, s)
    | (false, s) => parseVarDecl f s
  termination_by structural f _ => f

/-- `Parser.parse_var_decl()`. -/
def parseVarDecl : Nat → PState → Except PErr (CAst × PState)
  | 0, _ => .error .pfuel
  | f+1, s =>
    let (m1, s) := pMatchV .KEYWORD (cs "static") s
    let decor := if m1 then cs "static" else []
    let (m2, s) := pMatchV .IDENTIFIER (cs "inline") s
    let decor := decor ++ (if m2 then cs " inline" else [])
    (do
      let (tp, s) ← parseType f s
      let (name, s) ← pNextName s
      match pMatch .LEFT_PAR s with
      | (true, s) => do
        let (params, s) ← parseParams f [] s
        let (body, s) ←
          match pMatch .SEMICOLON s with
          | (true, s) => pure (CAst.NoneV, s)
          | (false, s) => parseStmt f s
        let result := CAst.FunctionDecl tp name params body
        return (if decor ≠ [] then .Decorated decor result else result, s)
      | (false, s) => do
        let (tp, names, s) ←
          match pMatch .EQUAL s with
          | (true, s) => do
            let (init, s) ← parseExpr f s
            pure (tp, [(name, init)], s)
          | (false, s) =>
            match pMatch .LEFT_BRACKET s with
            | (true, s) => do
              let (dim, s) ← dimLoop f [] s
              let tp := CAst.ArrayType tp dim.flatten
              match pMatch .EQUAL s with
              | (true, s) => do
                let (init, s) ← parseExpr f s
                pure (tp, [(name, init)], s)
              | (false, s) => pure (tp, [(name, CAst.NoneV)], s)
            | (false, s) => pure (tp, [(name, CAst.NoneV)], s)
        let (names, s) ← declNamesLoop f names s
        match pMatch .SEMICOLON s with
        | (true, s) =>
          let result := CAst.VarDecl tp (some names)
          return (if decor ≠ [] then .Decorated decor result else result, s)
        | (false, _) => .error .syn)
  termination_by structural f _ => f

/-- The `while not match(RIGHT_BRACKET)` dimension loop of
`parse_var_decl`. -/
def dimLoop : Nat → List (List Char) → PState → Except PErr (List (List Char) × PState)
  | 0, _, _ => .error .pfuel
  | f+1, acc, s =>
    match pMatch .RIGHT_BRACKET s with
    | (true, s) => .ok (acc, s)
    | (false, s) =>
      match pNextT s with
      | (some t, s) => dimLoop f (acc ++ [t.text]) s
      | (none, _) => .error .syn
  termination_by structural f _ _ => f

/-- The `while match(COMMA)` further-declarator loop of `parse_var_decl`. -/
def declNamesLoop : Nat → List (List Char × CAst) → PState →
    Except PErr (List (List Char × CAst) × PState)
  | 0, _, _ => .error .pfuel
  | f+1, acc, s =>
    match pMatch .COMMA s with
    | (false, s) => .ok (acc, s)
    | (true, s) => do
      let (name, s) ← pNextName s
      match pMatch .EQUAL s with
      | (true, s) => do
        let (init, s) ← parseExpr f s
        declNamesLoop f (acc ++ [(name, init)]) s
      | (false, s) => declNamesLoop f (acc ++ [(name, CAst.NoneV)]) s
  termination_by structural f _ _ => f

/-- `Parser.parse_params()`. -/
def parseParams : Nat → List CAst → PState → Except PErr (List CAst × PState)
  | 0, _, _ => .error .pfuel
  | f+1, acc, s =>
    match pMatch .RIGHT_PAR s with
    | (true, s) => .ok (acc, s)
    | (false, s) =>
      match pMatch .ELLIPSIS s with
      | (true, s) =>
        let (_, s) := pMatch .COMMA s
        parseParams f (acc ++ [CAst.EllipsisArg]) s
      | (false, s) => do
        let (tp, s) ← parseType f s
        let (name?, s) ←
          if pPeekK s 0 = some .IDENTIFIER then do
            let (n, s) ← pNextName s
            pure (some n, s)
          else pure (none, s)
        let vd := match name? with
          | some n => mkVarDeclStr tp n
          | none => CAst.VarDecl tp none
        let (_, s) := pMatch .COMMA s
        parseParams f (acc ++ [vd]) s
  termination_by structural f _ _ => f

/-- `Parser.check_pointer_star()`. -/
def checkPointerStar : Nat → CAst → PState → CAst × PState
  | 0, tp, s => (tp, s)
  | f+1, tp, s =>
    match pMatch .STAR s with
    | (true, s) => checkPointerStar f (.PointerType tp) s
    | (false, s) => (tp, s)
  termination_by structural f _ _ => f

/-- `Parser.parse_type()`. -/
def parseType : Nat → PState → Except PErr (CAst × PState)
  | 0, _ => .error .pfuel
  | f+1, s =>
    match pMatchV .KEYWORD (cs "struct") s with
    | (true, s) => do
      let (name?, s) ←
        if pPeekK s 0 = some .IDENTIFIER then do
          let (n, s) ← pNextName s
          pure (some n, s)
        else pure (none, s)
      match pMatch .LEFT_BRACE s with
      | (true, s) => do
        let s ←
          match name? with
          | some n =>
            if n ∈ s.pstructs then .error PErr.syn
            else pure { s with pstructs := setAdd s.pstructs n }
          | none => pure s
        let (fields, s) ← structFields f [] s
        return checkPointerStar f (.StructType name? fields) s
      | (false, s) =>
        match name? with
        | some n => return checkPointerStar f (.BaseType (cs "struct " ++ n)) s
        | none => .error .syn
    | (false, s) =>
      match pMatchV .KEYWORD (cs "enum") s with
      | (true, s) => do
        let (_, s) := pMatch .LEFT_BRACE s
        let (names, s) ← enumNames f [] s
        return (.EnumType names, s)
      | (false, s) =>
        match pMatchV .KEYWORD (cs "const") s with
        | (true, s) => do
          let (tp, s) ← parseType f s
          return (.ConstType tp, s)
        | (false, s) =>
          match pMatch .LEFT_PAR s with
          | (true, s) => do
            let (tp, s) ← parseType f s
            let (_, s) := pMatch .RIGHT_PAR s
            return (tp, s)
          | (false, s) => do
            let (name, s) ← pNextName s
            let (name, s) ←
              if (name = cs "signed" ∨ name = cs "unsigned") ∧
                  pPeekK s 0 = some .IDENTIFIER ∧
                  ((pPeekV s 0).getD []) ∈ s.ptypes then do
                let (n2, s) ← pNextName s
                pure (name ++ cs " " ++ n2, s)
              else pure (name, s)
            let rs := checkPointerStar f (.BaseType name) s
            let s := rs.2
            if pPeekSeq s 4 = [.LEFT_PAR, .IDENTIFIER, .RIGHT_PAR, .LEFT_PAR] ∧
                pPeekV s 1 = some (cs "func") then do
              let s := { s with pidx := s.pidx + 4 }
              let (params, s) ← funcTypeParams f [] s
              return (.FuncType rs.1 params, s)
            else return (rs.1, s)
  termination_by structural f _ => f

/-- The struct-field loop of `parse_type`. -/
def structFields : Nat → List CAst → PState → Except PErr (List CAst × PState)
  | 0, _, _ => .error .pfuel
  | f+1, acc, s =>
    match pMatch .RIGHT_BRACE s with
    | (true, s) => .ok (acc, s)
    | (false, s) => do
      let (d, s) ← parseVarDecl f s
      structFields f (acc ++ [d]) s
  termination_by structural f _ _ => f

/-- The enum-name loop of `parse_type`. -/
def enumNames : Nat → List (List Char) → PState →
    Except PErr (List (List Char) × PState)
  | 0, _, _ => .error .pfuel
  | f+1, acc, s =>
    match pMatch .RIGHT_BRACE s with
    | (true, s) => .ok (acc, s)
    | (false, s) => do
      let (n, s) ← pNextName s
      let (_, s) := pMatch .COMMA s
      enumNames f (acc ++ [n]) s
  termination_by structural f _ _ => f

/-- The parameter-type loop of `parse_type`'s function-pointer form. -/
def funcTypeParams : Nat → List CAst → PState → Except PErr (List CAst × PState)
  | 0, _, _ => .error .pfuel
  | f+1, acc, s =>
    match pMatch .RIGHT_PAR s with
    | (true, s) => .ok (acc, s)
    | (false, s) => do
      let (tp, s) ← parseType f s
      let (_, s) := pMatch .COMMA s
      funcTypeParams f (acc ++ [tp]) s
  termination_by structural f _ _ => f

/-- `Parser.parse_stmt()`. -/
def parseStmt : Nat → PState → Except PErr (CAst × PState)
  | 0, _ => .error .pfuel
  | f+1, s =>
    match pMatch .LEFT_BRACE s with
    | (true, s) => do
      let (stmts, s) ← bodyStmts f [] s
      return (.Body stmts, s)
    | (false, s) =>
      match pMatch .SEMICOLON s with
      | (true, s) => .ok (.EmptyStatement, s)
      | (false, s) =>
        if pPeekK s 0 = some .IDENTIFIER ∧ ((pPeekV s 0).getD []) ∈ s.ptypes then
          parseVarDecl f s
        else if pPeekSeq s 2 = [.IDENTIFIER, .COLON] then do
          let (name, s) ← pNextName s
          let s := pAdv s
          return (.Label name, s)
        else if pPeekK s 0 = some .KEYWORD ∧
            (pPeekV s 0 = some (cs "const") ∨ pPeekV s 0 = some (cs "struct")) then
          parseVarDecl f s
        else if pPeekK s 0 = some .DEFINE then
          parseStmt f (pNextT s).2
        else if pPeekK s 0 = some .KEYWORD then
          match pNextT s with
          | (some t, s) =>
            let keyword := t.text
            if keyword = cs "return" then
              match pMatch .SEMICOLON s with
              | (false, s) => do
                let (e, s) ← parseExpr f s
                let (_, s) := pMatch .SEMICOLON s
                return (.Return e, s)
              | (true, s) => return (.Return .NoneV, s)
            else if keyword = cs "if" then do
              let (_, s) := pMatch .LEFT_PAR s
              let (test, s) ← parseExpr f s
              let (_, s) := pMatch .RIGHT_PAR s
              let (body, s) ← parseStmt f s
              match pMatchV .KEYWORD (cs "else") s with
              | (true, s) => do
                let (orelse, s) ← parseStmt f s
                return (.If test body orelse, s)
              | (false, s) => return (.If test body .NoneV, s)
            else if keyword = cs "while" then do
              let (_, s) := pMatch .LEFT_PAR s
              let (test, s) ← parseExpr f s
              let (_, s) := pMatch .RIGHT_PAR s
              let (body, s) ← parseStmt f s
              return (.While test body, s)
            else if keyword = cs "for" then do
              let (_, s) := pMatch .LEFT_PAR s
              let (init, s) ←
                if pPeekK s 0 ≠ some .SEMICOLON then parseExprOrDecl f s
                else pure (CAst.NoneV, s)
              let (_, s) := pMatch .SEMICOLON s
              let (test, s) ←
                if pPeekK s 0 ≠ some .SEMICOLON then parseExpr f s
                else pure (CAst.NoneV, s)
              let (_, s) := pMatch .SEMICOLON s
              let (incr, s) ←
                if pPeekK s 0 ≠ some .RIGHT_PAR then parseExprOrDecl f s
                else pure (CAst.NoneV, s)
              let (_, s) := pMatch .RIGHT_PAR s
              let (body, s) ← parseStmt f s
              return (.For init test incr body, s)
            else if keyword = cs "do" then do
              let (body, s) ← parseStmt f s
              match pMatchV .KEYWORD (cs "while") s with
              | (true, s) => do
                let (_, s) := pMatch .LEFT_PAR s
                let (test, s) ← parseExpr f s
                let (_, s) := pMatch .RIGHT_PAR s
                let (_, s) := pMatch .SEMICOLON s
                return (.DoWhile test body, s)
              | (false, s) => do
                let (_, s) ← skipStatement f s
                return (.NoneV, s)
            else if keyword = cs "goto" then do
              let (name, s) ← pNextName s
              let (_, s) := pMatch .SEMICOLON s
              return (.Goto name, s)
            else if keyword = cs "break" then
              let (_, s) := pMatch .SEMICOLON s
              return (.Break, s)
            else if keyword = cs "continue" then
              let (_, s) := pMatch .SEMICOLON s
              return (.Continue, s)
            else if keyword = cs "static" then do
              let decor :=
                if pPeekK s 0 = some .IDENTIFIER ∧ pPeekV s 0 = some (cs "inline") then
                  cs "static inline"
                else cs "static"
              let (decl, s) ← parseDecl f s
              return (.Decorated decor decl, s)
            else if keyword = cs "switch" then
              parseSwitch f s
            else do
              let (_, s) ← skipStatement f s
              return (.NoneV, s)
          | (none, _) => .error .syn
        else if pPeekSeq s 2 = [.IDENTIFIER, .IDENTIFIER] then
          parseVarDecl f { s with ptypes := setAdd s.ptypes ((pPeekV s 0).getD []) }
        else if pPeekSeq s 3 = [.IDENTIFIER, .STAR, .IDENTIFIER] then
          parseVarDecl f { s with ptypes := setAdd s.ptypes ((pPeekV s 0).getD []) }
        else do
          let (e, s) ← parseExpr f s
          match pMatch .SEMICOLON s with
          | (true, s) => return (.Expression e, s)
          | (false, s) => do
            let (_, s) ← skipStatement f s
            return (.Expression e, s)
  termination_by structural f _ => f

/-- The statement collection loop of a `{...}` block. -/
def bodyStmts : Nat → List CAst → PState → Except PErr (List CAst × PState)
  | 0, _, _ => .error .pfuel
  | f+1, acc, s =>
    match pMatch .RIGHT_BRACE s with
    | (true, s) => .ok (acc, s)
    | (false, s) => do
      let (st, s) ← parseStmt f s
      bodyStmts f (acc ++ [st]) s
  termination_by structural f _ _ => f

/-- `Parser.parse_switch()`. -/
def parseSwitch : Nat → PState → Except PErr (CAst × PState)
  | 0, _ => .error .pfuel
  | f+1, s => do
    let (_, s) := pMatch .LEFT_PAR s
    let (subject, s) ← parseExpr f s
    let (_, s) := pMatch .RIGHT_PAR s
    let (_, s) := pMatch .LEFT_BRACE s
    let (cases, s) ← switchCases f [] s
    return (.Switch subject cases, s)
  termination_by structural f _ => f

/-- The case-group loop of `parse_switch`. -/
def switchCases : Nat → List CAst → PState → Except PErr (List CAst × PState)
  | 0, _, _ => .error .pfuel
  | f+1, acc, s =>
    match pMatch .RIGHT_BRACE s with
    | (true, s) => .ok (acc, s)
    | (false, s) =>
      match pMatchV .KEYWORD (cs "case") s with
      | (true, s) => do
        let (label, s) ← parseAtom f s
        let (_, s) := pMatch .COLON s
        let (stmts, s) ← caseBody f [] s
        switchCases f (acc ++ [CAst.Case label stmts]) s
      | (false, s) =>
        match pMatchV .KEYWORD (cs "default") s with
        | (true, s) => do
          let (_, s) := pMatch .COLON s
          let (stmts, s) ← caseBody f [] s
          switchCases f (acc ++ [CAst.Case .NoneV stmts]) s
        | (false, _) => .error .syn
  termination_by structural f _ _ => f

/-- `parse_case_body` inside `parse_switch`. -/
def caseBody : Nat → List CAst → PState → Except PErr (List CAst × PState)
  | 0, _, _ => .error .pfuel
  | f+1, acc, s =>
    if pPeekK s 0 = some .KEYWORD ∧
        (pPeekV s 0 = some (cs "case") ∨ pPeekV s 0 = some (cs "default")) then
      .ok (acc, s)
    else if pPeekK s 0 = some .RIGHT_BRACE then .ok (acc, s)
    else do
      let (st, s) ← parseStmt f s
      caseBody f (acc ++ [st]) s
  termination_by structural f _ _ => f

/-- `Parser.parse_expr_or_decl()` — faithfully including the unraised
`SyntaxError(...)` expression on its keyword branch, which makes it return
`None`. -/
def parseExprOrDecl : Nat → PState → Except PErr (CAst × PState)
  | 0, _ => .error .pfuel
  | f+1, s =>
    if pPeekK s 0 = some .IDENTIFIER ∧ ((pPeekV s 0).getD []) ∈ s.ptypes then
      parseVarDecl f s
    else if pPeekK s 0 = some .KEYWORD then
      if pPeekV s 0 = some (cs "struct") then parseVarDecl f s
      else .ok (.NoneV, s)
    else do
      let (e, s) ← parseExpr f s
      return (.Expression e, s)
  termination_by structural f _ => f

/-- `Parser.skip_statement()`. -/
def skipStatement : Nat → PState → Except PErr (Unit × PState) :=
  go 0
where
  go (level : Int) : Nat → PState → Except PErr (Unit × PState)
  | 0, _ => .error .pfuel
  | f+1, s =>
    match (if level = 0 then pMatch .SEMICOLON s else (false, s)) with
    | (true, s) => .ok ((), s)
    | (false, s) =>
      match pNextT s with
      | (some t, s) =>
        if t.kind = .LEFT_PAR ∨ t.kind = .LEFT_BRACE ∨ t.kind = .LEFT_BRACKET then
          go (level + 1) f s
        else if t.kind = .RIGHT_PAR ∨ t.kind = .RIGHT_BRACE ∨ t.kind = .RIGHT_BRACKET then
          go (level - 1) f s
        else go level f s
      | (none, _) => .error .syn

/-- `Parser.parse_expr()`. -/
def parseExpr : Nat → PState → Except PErr (CAst × PState)
  | 0, _ => .error .pfuel
  | f+1, s => do
    let (value, s) ← parseTernary f s
    match pMatch .EQUAL s with
    | (true, s) => do
      let (source, s) ← parseExpr f s
      return (.Assignment value source, s)
    | (false, s) =>
      if pPeekK s 0 = some .AUGASSIGN then do
        let (opTok, s) := pNextT s
        let op := (opTok.map Tok.text).getD []
        let (source, s) ← parseExpr f s
        return (.AugAssignment value op.dropLast source, s)
      else return (value, s)
  termination_by structural f _ => f

/-- `Parser.parse_ternary()`. -/
def parseTernary : Nat → PState → Except PErr (CAst × PState)
  | 0, _ => .error .pfuel
  | f+1, s => do
    let (value, s) ← parseBitwise f s
    match pMatch .QUESTION_MARK s with
    | (true, s) => do
      let (body, s) ← parseTernary f s
      let (_, s) := pMatch .COLON s
      let (orelse, s) ← parseTernary f s
      return (.IfExpr value body orelse, s)
    | (false, s) => return (value, s)
  termination_by structural f _ => f

/-- `Parser.parse_bitwise()` (its `while` loop included). -/
def parseBitwise : Nat → PState → Except PErr (CAst × PState)
  | 0, _ => .error .pfuel
  | f+1, s => do
    let (value, s) ← parseCompare f s
    parseBitwiseLoop f value s
  termination_by structural f _ => f

def parseBitwiseLoop : Nat → CAst → PState → Except PErr (CAst × PState)
  | 0, _, _ => .error .pfuel
  | f+1, value, s =>
    if pPeekK s 0 = some .OPERATOR ∨ pPeekK s 0 = some .AMPERSAND then do
      let (opTok, s) := pNextT s
      let (right, s) ← parseCompare f s
      parseBitwiseLoop f (.BinOp value ((opTok.map Tok.text).getD []) right) s
    else .ok (value, s)
  termination_by structural f _ _ => f

/-- `Parser.parse_compare()`. -/
def parseCompare : Nat → PState → Except PErr (CAst × PState)
  | 0, _ => .error .pfuel
  | f+1, s => do
    let (value, s) ← parseShift f s
    if pPeekK s 0 = some .COMPARE then do
      let (opTok, s) := pNextT s
      let (right, s) ← parseShift f s
      return (.Comparison value ((opTok.map Tok.text).getD []) right, s)
    else return (value, s)
  termination_by structural f _ => f

/-- `Parser.parse_shift()`. -/
def parseShift : Nat → PState → Except PErr (CAst × PState)
  | 0, _ => .error .pfuel
  | f+1, s => do
    let (value, s) ← parseSum f s
    if pPeekK s 0 = some .SHIFT_OPERATOR then do
      let (opTok, s) := pNextT s
      let (right, s) ← parseSum f s
      return (.BinOp value ((opTok.map Tok.text).getD []) right, s)
    else return (value, s)
  termination_by structural f _ => f

/-- `Parser.parse_sum()` (its `while` loop included). -/
def parseSum : Nat → PState → Except PErr (CAst × PState)
  | 0, _ => .error .pfuel
  | f+1, s => do
    let (value, s) ← parseProduct f s
    parseSumLoop f value s
  termination_by structural f _ => f

def parseSumLoop : Nat → CAst → PState → Except PErr (CAst × PState)
  | 0, _, _ => .error .pfuel
  | f+1, value, s =>
    if pPeekK s 0 = some .PLUS ∨ pPeekK s 0 = some .MINUS then do
      let (opTok, s) := pNextT s
      let (right, s) ← parseProduct f s
      parseSumLoop f (.BinOp value ((opTok.map Tok.text).getD []) right) s
    else .ok (value, s)
  termination_by structural f _ _ => f

/-- `Parser.parse_product()` (its `while` loop included). -/
def parseProduct : Nat → PState → Except PErr (CAst × PState)
  | 0, _ => .error .pfuel
  | f+1, s => do
    let (value, s) ← parseDeref f s
    parseProductLoop f value s
  termination_by structural f _ => f

def parseProductLoop : Nat → CAst → PState → Except PErr (CAst × PState)
  | 0, _, _ => .error .pfuel
  | f+1, value, s =>
    if pPeekK s 0 = some .DIV_OPERATOR ∨ pPeekK s 0 = some .STAR then do
      let (opTok, s) := pNextT s
      let (right, s) ← parseDeref f s
      parseProductLoop f (.BinOp value ((opTok.map Tok.text).getD []) right) s
    else .ok (value, s)
  termination_by structural f _ _ => f

/-- `Parser.parse_deref()`. -/
def parseDeref : Nat → PState → Except PErr (CAst × PState)
  | 0, _ => .error .pfuel
  | f+1, s => do
    let (deref, s) := pMatch .STAR s
    let (addr, s) := pMatch .AMPERSAND s
    let (value, s) ← parseAtom f s
    let value := if addr then CAst.AddressOf value else value
    let value := if deref then CAst.Deref value else value
    parseTrailer f value s
  termination_by structural f _ => f

/-- `Parser.parse_trailer()` (its `while True` loop). -/
def parseTrailer : Nat → CAst → PState → Except PErr (CAst × PState)
  | 0, _, _ => .error .pfuel
  | f+1, expr, s =>
    match pMatch .LEFT_PAR s with
    | (true, s) => do
      let (args, s) ← trailerArgs f [] s
      let (_, s) := pMatch .RIGHT_PAR s
      parseTrailer f (.Call expr args) s
    | (false, s) =>
      match pMatch .LEFT_BRACKET s with
      | (true, s) => do
        let (index, s) ← parseExpr f s
        let (_, s) := pMatch .RIGHT_BRACKET s
        parseTrailer f (.Subscript expr index) s
      | (false, s) =>
        match pMatch .ARROW s with
        | (true, s) => do
          let (attr, s) ← pNextName s
          parseTrailer f (.Attribute expr attr) s
        | (false, s) =>
          match pMatch .DOT s with
          | (true, s) => do
            let (attr, s) ← pNextName s
            parseTrailer f (.Attribute expr attr) s
          | (false, s) =>
            if pPeekK s 0 = some .DECREMENT ∨ pPeekK s 0 = some .INCREMENT then
              let (opTok, s) := pNextT s
              .ok (.UnarySuffixOp ((opTok.map Tok.text).getD []) expr, s)
            else .ok (expr, s)
  termination_by structural f _ _ => f

/-- The call-argument loop of `parse_trailer`
(`while self.peek() is not RIGHT_PAR`). -/
def trailerArgs : Nat → List CAst → PState → Except PErr (List CAst × PState)
  | 0, _, _ => .error .pfuel
  | f+1, acc, s =>
    if pPeekK s 0 ≠ some .RIGHT_PAR then do
      let (a, s) ← parseExpr f s
      let (_, s) := pMatch .COMMA s
      trailerArgs f (acc ++ [a]) s
    else .ok (acc, s)
  termination_by structural f _ _ => f

/-- `Parser.parse_atom()`. -/
def parseAtom : Nat → PState → Except PErr (CAst × PState)
  | 0, _ => .error .pfuel
  | f+1, s =>
    match pNextT s with
    | (none, _) => .error .syn
    | (some t, s) =>
      if t.kind = .LEFT_PAR then
        if pPeekK s 0 = some .IDENTIFIER ∧ ((pPeekV s 0).getD []) ∈ s.ptypes then do
          let (tp, s) ← parseType f s
          let (_, s) := pMatch .RIGHT_PAR s
          let (v, s) ← parseDeref f s
          return (.TypeCast tp v, s)
        else if pPeekSeq s 3 = [.IDENTIFIER, .STAR, .RIGHT_PAR] then do
          let (tp, s) ← parseType f s
          let (_, s) := pMatch .RIGHT_PAR s
          let (v, s) ← parseDeref f s
          return (.TypeCast tp v, s)
        else do
          let (e, s) ← parseExpr f s
          let (_, s) := pMatch .RIGHT_PAR s
          return (e, s)
      else if t.kind = .IDENTIFIER then .ok (.Name t.text, s)
      else if t.kind = .NULL ∨ t.kind = .NUMBER ∨ t.kind = .STRING then
        .ok (.Const t.text, s)
      else if t.kind = .PLUS ∨ t.kind = .MINUS ∨ t.kind = .UNARY_OP then do
        let (v, s) ← parseAtom f s
        match v with
        | .Const cv => return (.Const (t.text ++ cv), s)
        | _ => return (.UnaryOp t.text v, s)
      else if t.kind = .LEFT_BRACE then do
        let (vals, s) ← constArrayVals f [] s
        return (.ConstArray vals, s)
      else if t.kind = .KEYWORD ∧ t.text = cs "sizeof" then do
        let (e, s) ←
          if pPeekSeq s 2 = [.LEFT_PAR, .IDENTIFIER] ∧
              ((pPeekV s 1).getD []) ∈ s.ptypes then
            parseType f s
          else parseAtom f s
        return (.SizeOf e, s)
      else if t.kind = .DECREMENT ∨ t.kind = .INCREMENT then do
        let (e, s) ← parseAtom f s
        return (.UnaryOp t.text e, s)
      else .error .syn
  termination_by structural f _ => f

/-- The brace-list loop of `parse_atom`. -/
def constArrayVals : Nat → List CAst → PState → Except PErr (List CAst × PState)
  | 0, _, _ => .error .pfuel
  | f+1, acc, s =>
    match pMatch .RIGHT_BRACE s with
    | (true, s) => .ok (acc, s)
    | (false, s) => do
      let (v, s) ← parseAtom f s
      let (_, s) := pMatch .COMMA s
      constArrayVals f (acc ++ [v]) s
  termination_by structural f _ _ => f

end

/-! ### The action translator (`pegen/action_translator.py`) -/

/-- A value flowing through `Visitor.visit`: usually a `str`, but
`default_visit` returns the node itself, lists map elementwise, and `None`
passes through. -/
inductive VV where
  | s (v : List Char)
  | node (n : CAst)
  | lst (vs : List VV)
  | noneV

/-- A Python f-string interpolation of a visit result.  For the node and
list cases Python would embed the dataclass `repr`; its exact text is not
relied on by any claim and is modelled by a fixed marker. -/
def fmtVV : VV → List Char
  | .s v => v
  | .node _ => cs "<C_AST>"
  | .lst _ => cs "<list>"
  | .noneV => cs "None"

/-- The string content of a visit result, when it is one (Python raises a
`TypeError`/`AttributeError` otherwise wherever this is needed). -/
def strVV : VV → Option (List Char)
  | .s v => some v
  | _ => none

/-- All-strings extraction for `', '.join(args)`. -/
def strsVV : List VV → Option (List (List Char))
  | [] => some []
  | v :: r =>
    match strVV v, strsVV r with
    | some a, some b => some (a :: b)
    | _, _ => none

/-- `str()` of the `CType` nodes of `cparser/ast.py` that define `__str__`;
the remaining type forms fall back to the dataclass `repr`, modelled by a
marker no claim relies on. -/
def strCType : CAst → List Char
  | .BaseType n => n
  | .PointerType b => strCType b ++ cs "*"
  | .ConstType t => cs "const " ++ strCType t
  | .ArrayType t d => strCType t ++ cs "[" ++ d ++ cs "]"
  | _ => cs "<CType>"

/-- The `xmacros` table of `pegen/action_translator.py`. -/
def xmacros : List (List Char × (Nat × List Char)) :=
  [(cs "seq_LEN", (1, cs "#1.length")), (cs "seq_GET", (2, cs "#1[#2]"))]

/-- The `#i` placeholder substitution loop of `visit_Call`. -/
def xmacroSubst : List Char → Nat → List (List Char) → List Char
  | text, _, [] => text
  | text, i, a :: r =>
    xmacroSubst (replaceAll text (cs "#" ++ Nat.toDigits 10 (i+1)) a) (i+1) r

/-- The three lookup tables an `ActionTranslator` consults while visiting
(`self.type_map`, `self.attr_map`, `self.methods`). -/
structure ATMaps where
  tmap : List (List Char × List Char)
  amap : List (List Char × List Char)
  meths : List (List Char × List (List Char))

/-- `ActionTranslator.translate_type` (lines 426–459), on the rendered type
string (`None` becomes `Object`).  An empty string after the strips, where
Python's `type[0]` would raise, is sent to the final fallback. -/
def atTranslateType (tm : List (List Char × List Char)) : Option (List Char) → List Char
  | none => cs "Object"
  | some tp0 =>
    match alGet tm tp0 with
    | some v => v
    | none =>
      let (isSeq1, tp) :=
        if (cs "[]").isSuffixOf tp0 then (1, tp0.dropLast.dropLast) else (0, tp0)
      let cont : Option (Nat × List Char) :=
        if (cs "_seq*").isSuffixOf tp then
          some (isSeq1 + 1, tp.dropLast.dropLast.dropLast.dropLast.dropLast)
        else if tp = cs "void*" then none
        else if (cs "*").isSuffixOf tp then some (isSeq1, tp.dropLast)
        else some (isSeq1, tp)
      match cont with
      | none => cs "Object"
      | some (isSeq, tp) =>
        let tp := if (cs "asdl_").isPrefixOf tp then tp.drop 5 ++ cs "_ty" else tp
        let r :=
          match alGet tm tp with
          | some v => v
          | none =>
            if (tp.head?).any Char.isUpper ∧ ¬ '_' ∈ tp then tp
            else if tp = cs "void" ∨ tp = cs "int" then tp
            else if tp = cs "const char" then cs "String"
            else remUnd (pyTitle tp)
        r ++ (List.replicate isSeq (cs "[]")).flatten

/-- Child nodes visited by `Visitor.default_visit` (the `_fields` walk), for
the node kinds that have no dedicated `visit_` method. -/
def defaultChildren : CAst → List CAst
  | .ArrayType t _ => [t]
  | .ConstType t => [t]
  | .FuncType r ps => r :: ps
  | .PointerType b => [b]
  | .StructType _ fs => fs
  | .AddressOf v => [v]
  | .ConstArray vs => vs
  | .Deref v => [v]
  | .Decorated _ d => [d]
  | .DoWhile t b => [t, b]
  | .FunctionDecl t _ ps b => t :: ps ++ [b]
  | .SizeOf t => [t]
  | .Switch subj cs_ => subj :: cs_
  | .Case l ss => l :: ss
  | .TypeDecl t _ => [t]
  | .VarDecl t names =>
    t :: (match names with
          | some ps => ps.map Prod.snd
          | none => [])
  | _ => []

mutual

/-- `ActionVisitor.visit` (with the `CodeGenVisitor`/`Visitor` fallbacks):
returns the visit result and the accumulated free-name set
(`self.names`). -/
def avVisit : Nat → ATMaps → List (List Char) → CAst → Except Unit (VV × List (List Char))
  | 0, _, _, _ => .error ()
  | f+1, M, ns, x =>
    match x with
    | .NoneV => .ok (.noneV, ns)
    | .Name v =>
      let name := if (cs "asdl_").isPrefixOf v then v.drop 5 else v
      let name :=
        match alGet M.tmap name with
        | some m =>
          (match findIdxOf m '(' with
           | some i => m.take i
           | none => m)
        | none => name
      let ns := if ¬ '.' ∈ name then setAdd ns name else ns
      .ok (.s name, ns)
    | .Const v =>
      if v = cs "NULL" then .ok (.s (cs "null"), ns) else .ok (.s v, ns)
    | .Attribute value aname =>
      match value with
      | .Attribute v2 vn =>
        if (alGet M.tmap (cs "_PyAST_" ++ aname)).isSome ∧ vn = cs "v" then do
          let base := match v2 with
            | .TypeCast _ inner => inner
            | b => b
          let (r, ns) ← avVisit f M ns base
          return (.s (cs "((" ++ aname ++ cs ") " ++ fmtVV r ++ cs ")"), ns)
        else do
          let (r, ns) ← avVisit f M ns value
          let nm := (alGet M.amap aname).getD aname
          return (.s (fmtVV r ++ cs "." ++ nm), ns)
      | _ => do
        let (r, ns) ← avVisit f M ns value
        let nm := (alGet M.amap aname).getD aname
        return (.s (fmtVV r ++ cs "." ++ nm), ns)
    | .Call fn argNodes => do
      let (fr, ns) ← avVisit f M ns fn
      match strVV fr with
      | none => .error ()
      | some func =>
        let early : Except Unit
            (Sum (VV × List (List Char)) (List Char × List VV × List (List Char))) :=
          if (cs "#.").isPrefixOf func then
            match argNodes with
            | a0 :: restA =>
              match avVisit f M ns a0 with
              | .ok (r0, ns) =>
                (match strVV r0 with
                 | some v0 =>
                   match avVisitList f M ns restA with
                   | .ok (args, ns) => .ok (.inr (v0 ++ func.drop 1, args, ns))
                   | .error _ => .error ()
                 | none => .error ())
              | .error _ => .error ()
            | [] => .error ()
          else
            match alGet M.meths func with
            | some params =>
              if func = cs "PyPegen.newTypeComment" ∧ params.length = 1 then
                match argNodes.get? 1 with
                | some a1 =>
                  (match avVisit f M ns a1 with
                   | .ok rns => .ok (.inl rns)
                   | .error _ => .error ())
                | none => .error ()
              else if params.length > 0 ∧ params.getLast? = some (cs "PyArena") then
                match avVisitList f M ns ((argNodes.drop 1).dropLast) with
                | .ok (args, ns) => .ok (.inr (func, args, ns))
                | .error _ => .error ()
              else
                match avVisitList f M ns (argNodes.drop 1) with
                | .ok (args, ns) => .ok (.inr (func, args, ns))
                | .error _ => .error ()
            | none =>
              match avVisitList f M ns argNodes with
              | .ok (args, ns) => .ok (.inr (func, args, ns))
              | .error _ => .error ()
        match early with
        | .error _ => .error ()
        | .ok (.inl rns) => .ok rns
        | .ok (.inr (func, args, ns)) =>
          let argsE : Except Unit (List VV) :=
            match args.getLast? with
            | some la =>
              match strVV la with
              | some l => if (cs ".arena").isSuffixOf l then .ok args.dropLast else .ok args
              | none => .error ()
            | none => .ok args
          match argsE with
          | .error _ => .error ()
          | .ok args =>
            let nt := (alGet xmacros func).getD (0, [])
            if (alGet xmacros func).isSome ∧ nt.1 = args.length then
              match strsVV args with
              | some strs => .ok (.s (xmacroSubst nt.2 0 strs), ns)
              | none => .error ()
            else
              match strsVV args with
              | some strs =>
                .ok (.s (func ++ cs "(" ++ joinL (cs ", ") strs ++ cs ")"), ns)
              | none => .error ()
    | .IfExpr test body orelse => do
      let (t, ns) ← avVisit f M ns test
      let (b, ns) ← avVisit f M ns body
      let (o, ns) ← avVisit f M ns orelse
      let tstr := match test with
        | .Name _ => cs "(" ++ fmtVV t ++ cs " != null)"
        | _ => fmtVV t
      return (.s (cs "(" ++ tstr ++ cs " ? " ++ fmtVV b ++ cs " : " ++ fmtVV o ++ cs ")"), ns)
    | .TypeCast tp value =>
      match value with
      | .Call (.Name nm) cargs =>
        if nm = cs "CHECK_CALL" ∨ nm = cs "CHECK_CALL_NULL_ALLOWED" then
          match cargs.get? 1 with
          | some a1 => avVisit f M ns a1
          | none => .error ()
        else do
          let (r, ns) ← avVisit f M ns value
          return (.s (cs "(" ++ atTranslateType M.tmap (some (strCType tp)) ++ cs ")" ++ fmtVV r), ns)
      | _ => do
        let (r, ns) ← avVisit f M ns value
        return (.s (cs "(" ++ atTranslateType M.tmap (some (strCType tp)) ++ cs ")" ++ fmtVV r), ns)
    | .Assignment target source => do
      let (t, ns) ← avVisit f M ns target
      let (sv, ns) ← avVisit f M ns source
      return (.s (fmtVV t ++ cs " = " ++ fmtVV sv ++ cs ";"), ns)
    | .AugAssignment target op source => do
      let (t, ns) ← avVisit f M ns target
      let (sv, ns) ← avVisit f M ns source
      return (.s (fmtVV t ++ cs " " ++ op ++ cs "= " ++ fmtVV sv ++ cs ";"), ns)
    | .BinOp l op r => do
      let (lv, ns) ← avVisit f M ns l
      let (rv, ns) ← avVisit f M ns r
      return (.s (cs "(" ++ fmtVV lv ++ cs " " ++ op ++ cs " " ++ fmtVV rv ++ cs ")"), ns)
    | .Comparison l op r => do
      let (lv, ns) ← avVisit f M ns l
      let (rv, ns) ← avVisit f M ns r
      return (.s (cs "(" ++ fmtVV lv ++ cs " " ++ op ++ cs " " ++ fmtVV rv ++ cs ")"), ns)
    | .Body stmts => do
      let (rs, ns) ← avVisitList f M ns stmts
      match strsVV rs with
      | some codes =>
        let codes := codes.map (fun cde => replaceAll cde (cs "\n") (cs "\n  "))
        return (.s (cs "\x7b\n  " ++ joinL (cs "\n  ") codes ++ cs "\x7d"), ns)
      | none => .error ()
    | .Break => .ok (.s (cs "break;"), ns)
    | .Continue => .ok (.s (cs "continue;"), ns)
    | .Expression e => do
      let (r, ns) ← avVisit f M ns e
      return (.s (fmtVV r ++ cs ";"), ns)
    | .For init test incr body => do
      let (iv, ns) ←
        match init with
        | .NoneV => pure (VV.s [], ns)
        | _ => avVisit f M ns init
      let (tv, ns) ←
        match test with
        | .NoneV => pure (VV.s [], ns)
        | _ => avVisit f M ns test
      let (cv, ns) ←
        match incr with
        | .NoneV => pure (VV.s [], ns)
        | _ => avVisit f M ns incr
      let (bv, ns) ← avVisit f M ns body
      match strVV bv with
      | some b =>
        let b := if ¬ (cs "\x7b").isPrefixOf b then cs "\n  " ++ b else b
        return (.s (cs "for (" ++ fmtVV iv ++ cs "; " ++ fmtVV tv ++ cs "; " ++
          fmtVV cv ++ cs ")" ++ b), ns)
      | none => .error ()
    | .If test body orelse => do
      let (tv, ns) ← avVisit f M ns test
      let (bv, ns) ← avVisit f M ns body
      match strVV bv with
      | some b =>
        let b := if ¬ (cs "\x7b").isPrefixOf b then cs "\n  " ++ b else b
        let result := cs "if (" ++ fmtVV tv ++ cs ") " ++ b
        match orelse with
        | .NoneV => return (.s result, ns)
        | _ => do
          let (ov, ns) ← avVisit f M ns orelse
          match strVV ov with
          | some o =>
            if (cs "\x7b").isPrefixOf o then
              return (.s (result ++ cs "else " ++ b), ns)
            else
              return (.s (result ++ cs "else\n  " ++ b), ns)
          | none => .error ()
      | none => .error ()
    | .Return e =>
      match e with
      | .NoneV => .ok (.s (cs "return;"), ns)
      | _ => do
        let (r, ns) ← avVisit f M ns e
        return (.s (cs "return " ++ fmtVV r ++ cs ";"), ns)
    | .Subscript v i => do
      let (vv, ns) ← avVisit f M ns v
      let (iv, ns) ← avVisit f M ns i
      return (.s (fmtVV vv ++ cs "[" ++ fmtVV iv ++ cs "]"), ns)
    | .UnaryOp op v => do
      let (vv, ns) ← avVisit f M ns v
      return (.s (op ++ fmtVV vv), ns)
    | .UnarySuffixOp op v => do
      let (vv, ns) ← avVisit f M ns v
      return (.s (fmtVV vv ++ op), ns)
    | .VarDecl tp names =>
      match names with
      | none => .error ()
      | some ps => do
        let (rendered, ns) ← varDeclNames f M ns ps
        return (.s (strCType tp ++ cs " " ++ joinL (cs ", ") rendered ++ cs ";"), ns)
    | .While test body => do
      let (tv, ns) ← avVisit f M ns test
      let (bv, ns) ← avVisit f M ns body
      match strVV bv with
      | some b =>
        let b := if ¬ (cs "\x7b").isPrefixOf b then cs "\n  " ++ b else b
        return (.s (cs "while (" ++ fmtVV tv ++ cs ") " ++ b), ns)
      | none => .error ()
    | other => do
      let ns ← defaultVisitChildren f M ns (defaultChildren other)
      return (.node other, ns)
  termination_by structural f _ _ _ => f

/-- `Visitor.visit` on a list of nodes. -/
def avVisitList : Nat → ATMaps → List (List Char) → List CAst →
    Except Unit (List VV × List (List Char))
  | 0, _, _, _ => .error ()
  | _+1, _, ns, [] => .ok ([], ns)
  | f+1, M, ns, a :: r => do
    let (v, ns) ← avVisit f M ns a
    let (vs, ns) ← avVisitList f M ns r
    return (v :: vs, ns)
  termination_by structural f _ _ _ => f

/-- The `for field in node._fields` walk of `Visitor.default_visit`:
results are discarded, the name set grows. -/
def defaultVisitChildren : Nat → ATMaps → List (List Char) → List CAst →
    Except Unit (List (List Char))
  | 0, _, _, _ => .error ()
  | _+1, _, ns, [] => .ok ns
  | f+1, M, ns, a :: r => do
    let (_, ns) ← avVisit f M ns a
    defaultVisitChildren f M ns r
  termination_by structural f _ _ _ => f

/-- The `for (name, init) in node.names` loop of `visit_VarDecl`. -/
def varDeclNames : Nat → ATMaps → List (List Char) → List (List Char × CAst) →
    Except Unit (List (List Char) × List (List Char))
  | 0, _, _, _ => .error ()
  | _+1, _, ns, [] => .ok ([], ns)
  | f+1, M, ns, (name, init) :: r =>
    match init with
    | .NoneV => do
      let (rest, ns) ← varDeclNames f M ns r
      return (name :: rest, ns)
    | _ => do
      let (iv, ns) ← avVisit f M ns init
      let (rest, ns) ← varDeclNames f M ns r
      return ((name ++ cs " = " ++ fmtVV iv) :: rest, ns)
  termination_by structural f _ _ _ => f

end

/-- Fuel budget for one parser run over a token list. -/
def parseFuel (toks : List Tok) : Nat := 32 * (toks.length + 8)

/-- Fuel budget for one visitor run: the recursion descends the tree, whose
depth is bounded by the token count it was parsed from. -/
def visitFuel (toks : List Tok) : Nat := 4 * (toks.length + 8)

/-- The mutable state of an `ActionTranslator` together with its shared
`ParserContext` (`self.type_map`, `self.attr_map`, `self.methods`;
`parser_context.macros/types/structs/ast`). -/
structure ATState where
  tmap : List (List Char × List Char)
  amap : List (List Char × List Char)
  meths : List (List Char × List (List Char))
  ctxMacros : List (List Char × Macro)
  ctxTypes : List (List Char)
  ctxStructs : List (List Char)
  ctxAst : List CAst

/-- How a `translate_action` call can fail: an exception raised while
tokenizing, parsing, or visiting. -/
inductive ATErr where
  | tokErr
  | parseErr
  | visitErr
  deriving DecidableEq, Repr

/-- `ParserContext.parse_expr` of `cparser/parser.py`: tokenize with the
shared (mutated) macro table, seed a fresh `Parser` with the primitive types
plus the context's sets, parse one expression, then fold the parser's sets
and the AST back into the context. -/
def ctxParseExpr (st : ATState) (text : List Char) : Except ATErr CAst × ATState :=
  let r := tokenizeM text st.ctxMacros
  let st := { st with ctxMacros := r.2.2.macros }
  match r.2.1 with
  | .ok =>
    let ps : PState :=
      ⟨r.1, 0, setUnion parserPrims st.ctxTypes, setUnion [] st.ctxStructs⟩
    match parseExpr (parseFuel r.1) ps with
    | .ok (ast, ps') =>
      let st := { st with
        ctxTypes := setUnion st.ctxTypes ps'.ptypes,
        ctxStructs := setUnion st.ctxStructs ps'.pstructs,
        ctxAst := st.ctxAst ++ (match ast with | .Body ss => ss | a => [a]) }
      (.ok ast, st)
    | .error _ => (.error .parseErr, st)
  | _ => (.error .tokErr, st)

/-- `ActionTranslator.translate_action`: parse the expression with the shared
tokenizer/parser context, then visit it with a fresh `ActionVisitor`,
returning the translated result and the free-name set. -/
def translateAction (st : ATState) (text : List Char) :
    Except ATErr (VV × List (List Char)) × ATState :=
  match ctxParseExpr st text with
  | (.ok ast, st') =>
    match avVisit (visitFuel (tokenizeM text st.ctxMacros).1) ⟨st'.tmap, st'.amap, st'.meths⟩ [] ast with
    | .ok (v, ns) => (.ok (v, ns), st')
    | .error _ => (.error .visitErr, st')
  | (.error e, st') => (.error e, st')

/-- Claim C8 as stated, at one state and expression: when the second call
runs on a state whose type, attribute and method maps are unchanged, it
returns the same result. -/
def claimC8At (st : ATState) (text : List Char) : Prop :=
  (translateAction st text).2.tmap = st.tmap →
  (translateAction st text).2.amap = st.amap →
  (translateAction st text).2.meths = st.meths →
  (translateAction ((translateAction st text).2) text).1 = (translateAction st text).1

/-! ### Concrete claim inputs -/

/-- C1 input: an `#if 0` region containing a nested `#if 1` region. -/
def srcC1 : List Char := cs "#if 0\na\n#if 1\nb\n#endif\nc\n#endif\nd"

/-- C2 input: a function-like macro definition followed by its use. -/
def srcC2 : List Char := cs "#define ADD(a,b) a+b\nADD(x,y)"

/-- C2 comparison input. -/
def srcXY : List Char := cs "x+y"

/-- C5 failing input: a bare `#define` followed by a use of the macro. -/
def srcC5 : List Char := cs "#define X\nX"

/-- C9 counterexample input: a define whose final newline is masked by a
backslash, so the line is only terminated if another newline follows. -/
def srcC9 : List Char := cs "#define x y\\\n"

/-- C8 counterexample state: an `ActionTranslator` whose maps and shared
parser context are all empty. -/
def st0 : ATState := ⟨[], [], [], [], [], [], []⟩

/-- C8 counterexample expression: a use of `A` textually before a `#define`
of `A`, which the first call registers in the shared macro table. -/
def textA : List Char := cs "A\n#define A B"

/-- C8 witness expression. -/
def textAB : List Char := cs "a + b"

/-- Observable part of a `translate_action` result: the translated text when
it is a string, with the free-name set. -/
def resStr (r : Except ATErr (VV × List (List Char))) :
    Option (List Char × List (List Char)) :=
  match r with
  | .ok (v, ns) => (strVV v).map (fun t => (t, ns))
  | .error _ => none

/-- C6 counterexample class: one optional `int` field, no explicit
constructor body. -/
def clsC6 : JClass :=
  ((mkJClass (cs "T") none).addVar ((mkJVar (cs "x") (cs "int")).setOptional)).1

/-- C6/C7 witness class: two mandatory fields. -/
def clsW : JClass :=
  (((mkJClass (cs "W") none).addVar (mkJVar (cs "x") (cs "int"))).1.addVar
    (mkJVar (cs "y") (cs "String"))).1

/-- C7 witness method: one mandatory and one optional argument. -/
def methW : JMethod :=
  mkJMethod (cs "W") (cs "m") (some (cs "void"))
    [mkJVar (cs "x") (cs "int"), (mkJVar (cs "y") (cs "int")).setOptional] none

/-- C10 witness class and variable: adding a duplicate field name. -/
def clsC10 : JClass := ((mkJClass (cs "K") none).addVar (mkJVar (cs "x") (cs "int"))).1

def varC10 : JVar := mkJVar (cs "x") (cs "long")

/-- C4 counterexample rewrite: source parameter `isSimple`, target parameter
`simple` — the target is shorter than (and contained in) the source. -/
def cargsC4 : List (List Char) := [cs "int isSimple"]

def jargsC4 : List (List Char) := [cs "int simple"]

/-- The raw token stream of the normalised C2 input, as the raw lexer
produces it (verified below in `rawLexC2_eval`). -/
def rawsC2 : List Tok :=
  [⟨.DIRECTIVE, 0, cs "#define"⟩, ⟨.IDENTIFIER, 8, cs "ADD"⟩, ⟨.LEFT_PAR, 11, cs "("⟩,
   ⟨.IDENTIFIER, 12, cs "a"⟩, ⟨.COMMA, 13, cs ","⟩, ⟨.IDENTIFIER, 14, cs "b"⟩,
   ⟨.RIGHT_PAR, 15, cs ")"⟩, ⟨.IDENTIFIER, 17, cs "a"⟩, ⟨.PLUS, 18, cs "+"⟩,
   ⟨.IDENTIFIER, 19, cs "b"⟩, ⟨.NEWLINE, 20, cs "\n"⟩, ⟨.IDENTIFIER, 21, cs "ADD"⟩,
   ⟨.LEFT_PAR, 24, cs "("⟩, ⟨.IDENTIFIER, 25, cs "x"⟩, ⟨.COMMA, 26, cs ","⟩,
   ⟨.IDENTIFIER, 27, cs "y"⟩, ⟨.RIGHT_PAR, 28, cs ")"⟩]

/-- The macro the C2 definition line registers. -/
def macroADD : Macro :=
  ⟨cs "ADD", some [cs "a", cs "b"], false,
   [⟨.IDENTIFIER, 17, cs "a"⟩, ⟨.PLUS, 18, cs "+"⟩, ⟨.IDENTIFIER, 19, cs "b"⟩]⟩

/-- The token stream the tokenizer emits for the C2 input. -/
def toksC2 : List Tok :=
  [⟨.DEFINE, 0, cs "ADD(a,b) := a+b"⟩, ⟨.IDENTIFIER, 25, cs "x"⟩,
   ⟨.PLUS, 18, cs "+"⟩, ⟨.IDENTIFIER, 27, cs "y"⟩]

/-- The token stream the tokenizer emits for `x+y`. -/
def toksXY : List Tok :=
  [⟨.IDENTIFIER, 0, cs "x"⟩, ⟨.PLUS, 1, cs "+"⟩, ⟨.IDENTIFIER, 2, cs "y"⟩]

/-!
## Theorems

First the concrete evaluation lemmas the claim theorems below rewrite with,
then one theorem (plus counterexample and witness where applicable) per
claim C1–C10.
-/

/-- The raw lexer on the normalised C2 input. -/
theorem rawLexC2_eval : rawLex (cs "#define ADD(a,b) a+b\nADD(x,y)\n") = rawsC2 := by
  decide

set_option maxHeartbeats 2000000 in
/-- Full evaluation of the tokenizer on the C2 input: the `DEFINE` marker,
then the expansion of `ADD(x,y)`, ending cleanly with `ADD` registered. -/
theorem tokenizeC2_eval :
    tokenize srcC2 = (toksC2, .ok, ⟨[], [], [], [(cs "ADD", macroADD)]⟩) := by
  have h1 : normalizeSrc srcC2 = cs "#define ADD(a,b) a+b\nADD(x,y)\n" := by decide
  have h3 : tokFuel (cs "#define ADD(a,b) a+b\nADD(x,y)\n") = 736 := by decide
  show runTk (tokFuel (normalizeSrc srcC2)) (tokFuel (normalizeSrc srcC2))
      (initSt (rawLex (normalizeSrc srcC2))) = _
  rw [h1, h3, rawLexC2_eval]
  decide

/-- Full evaluation of the tokenizer on `x+y`. -/
theorem tokenizeXY_eval : tokenize srcXY = (toksXY, .ok, ⟨[], [], [], []⟩) := by
  decide

/-- C2, counterexample: after dropping the `DEFINE` marker, the stream
produced for `#define ADD(a,b) a+b` + `ADD(x,y)` is *not* the stream produced
for `x+y` — the expansion keeps the original source positions of the macro
body and of the argument tokens. -/
theorem c2_counterexample : (tokOut srcC2).drop 1 ≠ tokOut srcXY := by
  simp only [tokOut, tokenizeC2_eval, tokenizeXY_eval]
  decide

/-- C2, amended: the expansion of `ADD(x,y)` agrees with tokenizing `x+y`
directly in the token kinds and texts (everything but the positions), after
the `DEFINE` marker token of the definition line. -/
theorem c2_amended :
    (tokOut srcC2).map (fun t => (t.kind, t.text)) =
      (TType.DEFINE, cs "ADD(a,b) := a+b") ::
        (tokOut srcXY).map (fun t => (t.kind, t.text)) := by
  simp only [tokOut, tokenizeC2_eval, tokenizeXY_eval]
  decide

/-- C3, counterexample: `long` is a stored target value of the type map (the
value of key `long long`), yet translating `long` again yields `int`, not
`long`. -/
theorem c3_counterexample :
    (cs "long long", cs "long") ∈ type_map ∧
      translateTy (cs "long") ≠ some (cs "long") := by
  decide

/-- C3, amended: every stored target value of the built-in type map other
than `long` is returned unchanged by a second translation pass. -/
theorem c3_amended :
    ∀ p ∈ type_map, p.2 ≠ cs "long" → translateTy p.2 = some p.2 := by
  decide

/-- C3 witness: the entry `char* ↦ String`, whose value translates to
itself. -/
theorem c3_amended_witness :
    (cs "char*", cs "String") ∈ type_map ∧
      translateTy (cs "String") = some (cs "String") :=
  ⟨by decide, c3_amended (cs "char*", cs "String") (by decide) (by decide)⟩

/-- C4, counterexample: for the rewrite with source parameter `int isSimple`
and target parameter `int simple`, the code raises (its coverage test only
asks whether the source name is contained in the target name), while the
specification's symmetric coverage rule — shorter name at least half the
longer one and contained in it — matches `simple` inside `issimple`. -/
theorem c4_counterexample : ¬ claimC4At (cs "f") cargsC4 jargsC4 := by
  unfold claimC4At
  decide

/-- C4, amended: the correspondence loop of `translate_call` behaves exactly
as the sequential process `matchSpec` written from the amended sentence: walk
the target names in order, keep a target already present, else rename the
first source name matching the case/underscore-insensitive rule, else the
first one matching the code's source-contained-in-target coverage rule, and
raise an error naming the call and the parameter when nothing matches. -/
theorem c4_amended :
    ∀ (cfunc : List Char) (cdict : List (List Char × List Char))
      (cnames jnames : List (List Char)),
      (matchLoopCode cfunc cdict cnames jnames).map Prod.snd =
        matchSpec cfunc cnames jnames := by
  intro cfunc cdict cnames jnames
  induction jnames generalizing cdict cnames with
  | nil => rfl
  | cons j js ih =>
    simp only [matchLoopCode, matchSpec]
    split
    · exact ih _ _
    · cases cnames.findIdx? (fun c => ruleExactCI c j) with
      | some i => exact ih _ _
      | none =>
        cases cnames.findIdx? (fun c => ruleCoverCode c j) with
        | some i => exact ih _ _
        | none => rfl

/-- C5, code bug: the bare directive `#define X` registers the macro
`Macro('X', None, [])`; the next visible occurrence of `X` then crashes in
`Macro.apply` — `len(self.args)` on `None` is a `TypeError` — so the run
errors with no output token, instead of producing the stream of the input
with the occurrence deleted (which is empty and ends cleanly). -/
theorem c5_code_bug :
    (tokenize (cs "#define X")).2.2.macros = [(cs "X", mkMacro (cs "X") none [])] ∧
    tokenize srcC5 = ([], .err, initSt (rawLex (normalizeSrc srcC5))) ∧
    tokenize (cs "#define X\n") = ([], .ok, ⟨[], [], [], [(cs "X", mkMacro (cs "X") none [])]⟩) := by
  refine ⟨by decide, by decide, by decide⟩

/-- C9, counterexample: a backslash masks the final newline of
`#define x y\⏎`, so the already-newline-terminated source tokenizes to
nothing, while appending one more newline completes the directive line and
produces its `DEFINE` token. -/
theorem c9_counterexample : tokOut srcC9 ≠ tokOut (srcC9 ++ cs "\n") := by
  decide

/-- C9, amended: for a source that does not already end in a newline, the
tokenizer run is identical with and without an appended newline, because the
constructor normalises the source by appending one. -/
theorem c9_amended :
    ∀ s : List Char, s.getLast? ≠ some '\n' → tokenize s = tokenize (s ++ cs "\n") := by
  intro s h
  match s with
  | [] => decide
  | c :: s' =>
    have h1 : normalizeSrc (c :: s') = (c :: s') ++ ['\n'] := by
      unfold normalizeSrc
      rw [if_pos ⟨by simp, h⟩]
    have h2 : normalizeSrc ((c :: s') ++ cs "\n") = (c :: s') ++ ['\n'] := by
      unfold normalizeSrc
      rw [if_neg]
      · rfl
      · intro hc
        exact hc.2 (by rw [show (cs "\n") = ['\n'] from rfl, List.getLast?_concat])
    simp only [tokenize, h1, h2]

/-- C9 witness: the amended theorem applied to `x+y`. -/
theorem c9_amended_witness :
    (srcXY.getLast? ≠ some '\n') ∧ tokenize srcXY = tokenize (srcXY ++ cs "\n") :=
  ⟨by decide, c9_amended srcXY (by decide)⟩

/-- C10: adding a `JavaVariable` whose name an existing field already bears
raises a `KeyError` naming the field and the class, and returns the class
unchanged — the duplicate test precedes both the `fields` and the
constructor-argument append. -/
theorem c10_add_duplicate :
    ∀ (c : JClass) (v : JVar),
      (c.fields.any fun f => f.name = v.name) = true →
      c.addVar v = (c, some (v.name, c.name)) := by
  intro c v h
  cases c with
  | mk n b fs ca cb ms ns mods =>
    simp only [JClass.fields] at h
    simp only [JClass.addVar, JClass.name, h, if_true]

/-- C10 witness: adding `long x` to a class that already has a field `x`. -/
theorem c10_witness :
    (clsC10.fields.any fun f => f.name = varC10.name) = true ∧
      clsC10.addVar varC10 = (clsC10, some (varC10.name, clsC10.name)) :=
  ⟨by decide, c10_add_duplicate clsC10 varC10 (by decide)⟩

/-- C1, counterexample: in `srcC1` the token `b` lies strictly between the
`#if 0` (raw index 0) and its matching `#endif` (raw index 11), yet the
nested `#if 1` makes the top of the conditional stack true again, so `b` is
emitted. -/
theorem c1_counterexample : ¬ claimC1At srcC1 := fun h =>
  h (by decide) 0 11 7 ⟨.IDENTIFIER, 14, cs "b"⟩ (by decide) (by decide) (by decide)
    (by decide) (by decide) (by decide) (by decide)

/-- While the top of the conditional stack is false, `Tokenizer.__next__`
discards non-directive raw tokens one after the other (each costing two fuel
steps: the dispatch and the visibility test). -/
theorem nextTok_skip :
    ∀ (B : List Tok) (bs : List Bool) (M : List (List Char × Macro))
      (rest : List Tok) (f : Nat),
      visible bs = false → (∀ t ∈ B, t.kind ≠ TType.DIRECTIVE) →
      nextTok (f + 2 * B.length) ⟨B ++ rest, [], bs, M⟩ = nextTok f ⟨rest, [], bs, M⟩ := by
  intro B bs M rest
  induction B with
  | nil => intro f _ _; simp
  | cons t B' ih =>
    intro f hv hB
    have ht : ¬ (t.kind = TType.DIRECTIVE) := hB t (List.mem_cons_self t B')
    rw [show (t :: B').length = B'.length + 1 from rfl,
        show f + 2 * (B'.length + 1) = (f + 2 * B'.length + 1) + 1 from by omega]
    simp only [nextTok, List.cons_append]
    rw [if_neg ht]
    simp only [visPart, hv, Bool.false_eq_true, if_false]
    exact ih f hv (fun u hu => hB u (List.mem_cons_of_mem _ hu))

/-- An `#if 0` line, a directive-free region `B` and the matching `#endif`
line at the head of the raw stream are consumed whole: the machine proceeds
exactly as if they were not there (at the cost of `2·|B| + 4` fuel steps). -/
theorem nextTok_if0 :
    ∀ (B rest : List Tok) (bs : List Bool) (M : List (List Char × Macro))
      (p1 p2 p3 p4 p5 : Nat) (f : Nat),
      (∀ t ∈ B, t.kind ≠ TType.DIRECTIVE) →
      nextTok (f + 2 * B.length + 4)
        ⟨⟨.DIRECTIVE, p1, cs "#if"⟩ :: ⟨.NUMBER, p2, cs "0"⟩ :: ⟨.NEWLINE, p3, cs "\n"⟩ ::
          (B ++ ⟨.DIRECTIVE, p4, cs "#endif"⟩ :: ⟨.NEWLINE, p5, cs "\n"⟩ :: rest),
          [], bs, M⟩ =
      nextTok f ⟨rest, [], bs, M⟩ := by
  intro B rest bs M p1 p2 p3 p4 p5 f hB
  calc nextTok (f + 2 * B.length + 4)
        ⟨⟨.DIRECTIVE, p1, cs "#if"⟩ :: ⟨.NUMBER, p2, cs "0"⟩ :: ⟨.NEWLINE, p3, cs "\n"⟩ ::
          (B ++ ⟨.DIRECTIVE, p4, cs "#endif"⟩ :: ⟨.NEWLINE, p5, cs "\n"⟩ :: rest),
          [], bs, M⟩
      = nextTok (f + 2 * B.length + 2)
        ⟨B ++ ⟨.DIRECTIVE, p4, cs "#endif"⟩ :: ⟨.NEWLINE, p5, cs "\n"⟩ :: rest,
          [], false :: bs, M⟩ := rfl
    _ = nextTok ((f + 2) + 2 * B.length)
        ⟨B ++ ⟨.DIRECTIVE, p4, cs "#endif"⟩ :: ⟨.NEWLINE, p5, cs "\n"⟩ :: rest,
          [], false :: bs, M⟩ := by
          rw [show f + 2 * B.length + 2 = (f + 2) + 2 * B.length from by omega]
    _ = nextTok (f + 2)
        ⟨⟨.DIRECTIVE, p4, cs "#endif"⟩ :: ⟨.NEWLINE, p5, cs "\n"⟩ :: rest,
          [], false :: bs, M⟩ :=
          nextTok_skip B (false :: bs) M _ (f + 2) rfl hB
    _ = nextTok f ⟨rest, [], bs, M⟩ := rfl

/-- C1, amended: the conditional-visibility test of the tokenizer consults
only the top of the `if_stack`, so the guarantee that holds is for regions
without nested directives: the tokens and outcome of a run whose raw stream
opens with an `#if 0` line, a directive-free region `B` and the matching
`#endif` line equal those of the run on the stream with the whole region
removed. -/
theorem c1_amended :
    ∀ (n : Nat) (B rest : List Tok) (bs : List Bool) (M : List (List Char × Macro))
      (p1 p2 p3 p4 p5 : Nat) (f : Nat),
      (∀ t ∈ B, t.kind ≠ TType.DIRECTIVE) →
      ((runTk n (f + 2 * B.length + 4)
          ⟨⟨.DIRECTIVE, p1, cs "#if"⟩ :: ⟨.NUMBER, p2, cs "0"⟩ :: ⟨.NEWLINE, p3, cs "\n"⟩ ::
            (B ++ ⟨.DIRECTIVE, p4, cs "#endif"⟩ :: ⟨.NEWLINE, p5, cs "\n"⟩ :: rest),
            [], bs, M⟩).1,
       (runTk n (f + 2 * B.length + 4)
          ⟨⟨.DIRECTIVE, p1, cs "#if"⟩ :: ⟨.NUMBER, p2, cs "0"⟩ :: ⟨.NEWLINE, p3, cs "\n"⟩ ::
            (B ++ ⟨.DIRECTIVE, p4, cs "#endif"⟩ :: ⟨.NEWLINE, p5, cs "\n"⟩ :: rest),
            [], bs, M⟩).2.1) =
      ((runTk n f ⟨rest, [], bs, M⟩).1, (runTk n f ⟨rest, [], bs, M⟩).2.1) := by
  intro n B rest bs M p1 p2 p3 p4 p5 f hB
  cases n with
  | zero => rfl
  | succ n' =>
    simp only [runTk, nextTok_if0 B rest bs M p1 p2 p3 p4 p5 f hB]
    cases nextTok f ⟨rest, [], bs, M⟩ <;> rfl

/-- C1 witness: the amended theorem at a one-token region. -/
theorem c1_amended_witness :
    (∀ t ∈ [(⟨.IDENTIFIER, 6, cs "a"⟩ : Tok)], t.kind ≠ TType.DIRECTIVE) ∧
    ((runTk 3 (1 + 2 * 1 + 4)
        ⟨⟨.DIRECTIVE, 0, cs "#if"⟩ :: ⟨.NUMBER, 4, cs "0"⟩ :: ⟨.NEWLINE, 5, cs "\n"⟩ ::
          ([⟨.IDENTIFIER, 6, cs "a"⟩] ++ ⟨.DIRECTIVE, 8, cs "#endif"⟩ ::
            ⟨.NEWLINE, 14, cs "\n"⟩ :: [⟨.IDENTIFIER, 15, cs "d"⟩]),
          [], [], []⟩).1,
     (runTk 3 (1 + 2 * 1 + 4)
        ⟨⟨.DIRECTIVE, 0, cs "#if"⟩ :: ⟨.NUMBER, 4, cs "0"⟩ :: ⟨.NEWLINE, 5, cs "\n"⟩ ::
          ([⟨.IDENTIFIER, 6, cs "a"⟩] ++ ⟨.DIRECTIVE, 8, cs "#endif"⟩ ::
            ⟨.NEWLINE, 14, cs "\n"⟩ :: [⟨.IDENTIFIER, 15, cs "d"⟩]),
          [], [], []⟩).2.1) =
    ((runTk 3 1 ⟨[⟨.IDENTIFIER, 15, cs "d"⟩], [], [], []⟩).1,
     (runTk 3 1 ⟨[⟨.IDENTIFIER, 15, cs "d"⟩], [], [], []⟩).2.1) :=
  ⟨by decide,
   c1_amended 3 [⟨.IDENTIFIER, 6, cs "a"⟩] [⟨.IDENTIFIER, 15, cs "d"⟩] [] []
     0 4 5 8 14 1 (by decide)⟩

/-- C6, counterexample: the class `T` with one optional `int` field and no
explicit constructor body emits *two* generated constructors (the full one
and the zero-argument overload), not exactly one. -/
theorem c6_counterexample : ¬ claimC6At clsC6 := fun h =>
  absurd (h (by decide) rfl) (by decide)

/-- `a` is a prefix of `a ++ b` as the executable `isPrefixOf`. -/
theorem isPrefixOf_append_self (a b : List Char) : a.isPrefixOf (a ++ b) = true :=
  List.isPrefixOf_iff_prefix.mpr (List.prefix_append a b)


/-- `getAllDeclsList` with its `let`s spelled out. -/
theorem getAllDeclsList_eq (c : JClass) (m : JMethod) :
    getAllDeclsList c m =
      if allArgs c m ≠ [] ∧ ((allArgs c m).filter JVar.is_optional).length > 0 then
        JMethod.declaration c m ::
          (List.range ((allArgs c m).filter JVar.is_optional).length).map (fun i =>
            cs "  " ++ ovHead c m ++ cs "(" ++
              joinL (cs ", ") (ovLoop (allArgs c m) (Int.ofNat i)).1 ++ cs ") \x7b\n    " ++
              ovFwd c m ++ cs "(" ++
              joinL (cs ", ") (ovLoop (allArgs c m) (Int.ofNat i)).2 ++ cs ");\n  \x7d")
      else [JMethod.declaration c m] := rfl

/-- C6, amended: a class with no explicitly supplied constructor body emits
one generated constructor per omissible suffix of optional constructor
arguments — `nopt + 1` of them, each opening with `public <name>(` — so
exactly one precisely when no constructor argument is optional; and the full
constructor's body is the `ctorCode` block: the base-constructor call on the
inherited fields, then one assignment per own argument in declaration
order. -/
theorem c6_amended :
    ∀ c : JClass, c.ctorBody = none →
      (getAllDeclsList c c.ctorMethod).length =
        ((allArgs c c.ctorMethod).filter JVar.is_optional).length + 1 ∧
      getBody c c.ctorMethod =
        cs "    " ++ joinL (cs "\n    ") (ctorCode c c.ctorMethod) ∧
      ∀ d ∈ getAllDeclsList c c.ctorMethod,
        (cs "  " ++ genCtorHead c).isPrefixOf d = true := by
  intro c hb
  have hctor : isCtorOf c c.ctorMethod = true := by
    simp [isCtorOf, JClass.ctorMethod]
  refine ⟨?_, ?_, ?_⟩
  · rw [getAllDeclsList_eq]
    split
    · rw [List.length_cons, List.length_map, List.length_range]
    · rename_i hcond
      rw [Decidable.not_and_iff_or_not] at hcond
      rcases hcond with hnil | hzero
      · rw [Decidable.not_not] at hnil
        simp [hnil]
      · simp only [List.length_singleton]
        omega
  · unfold getBody
    rw [show (JClass.ctorMethod c).body = c.ctorBody from rfl, hb, if_pos hctor]
  · intro d hd
    rw [getAllDeclsList_eq] at hd
    have hhead : ((cs "  " ++ genCtorHead c).isPrefixOf
        (JMethod.declaration c c.ctorMethod)) = true := by
      have : JMethod.declaration c c.ctorMethod =
          (cs "  " ++ genCtorHead c) ++
            (getArgsStr c c.ctorMethod none ++ (cs ")" ++ (cs " \x7b\n" ++
              (getBody c c.ctorMethod ++ cs "\n  \x7d")))) := by
        simp [JMethod.declaration, getHead, genCtorHead, memberComment,
          JClass.ctorMethod, hctor, isCtorOf, List.append_assoc]
      rw [this]
      exact isPrefixOf_append_self _ _
    split at hd
    · rcases List.mem_cons.mp hd with hd | hd
      · rw [hd]; exact hhead
      · simp only [List.mem_map, List.mem_range] at hd
        obtain ⟨i, _, hi⟩ := hd
        have hov : cs "  " ++ ovHead c c.ctorMethod ++ cs "(" ++
              joinL (cs ", ") (ovLoop (allArgs c c.ctorMethod) (Int.ofNat i)).1 ++
              cs ") \x7b\n    " ++ ovFwd c c.ctorMethod ++ cs "(" ++
              joinL (cs ", ") (ovLoop (allArgs c c.ctorMethod) (Int.ofNat i)).2 ++
              cs ");\n  \x7d" =
            (cs "  " ++ genCtorHead c) ++
              (joinL (cs ", ") (ovLoop (allArgs c c.ctorMethod) (Int.ofNat i)).1 ++
                (cs ") \x7b\n    " ++ (ovFwd c c.ctorMethod ++ (cs "(" ++
                  (joinL (cs ", ") (ovLoop (allArgs c c.ctorMethod) (Int.ofNat i)).2 ++
                    cs ");\n  \x7d"))))) := by
          simp [ovHead, genCtorHead, JClass.ctorMethod, hctor, isCtorOf,
            List.append_assoc]
        rw [← hi, hov]
        exact isPrefixOf_append_self _ _
    · rcases List.mem_cons.mp hd with hd | hd
      · rw [hd]; exact hhead
      · exact absurd hd (List.not_mem_nil d)

/-- C6 witness: the amended theorem at the two-mandatory-field class `W`,
whose constructor block is a single constructor. -/
theorem c6_amended_witness :
    clsW.ctorBody = none ∧
      (getAllDeclsList clsW clsW.ctorMethod).length =
        ((allArgs clsW clsW.ctorMethod).filter JVar.is_optional).length + 1 :=
  ⟨rfl, (c6_amended clsW rfl).1⟩

/-- The `ovLoop` cons equation with its `let`s spelled out. -/
theorem ovLoop_cons (a : JVar) (rest : List JVar) (j : Int) :
    ovLoop (a :: rest) j =
      if a.is_optional then
        if j - 1 < 0 then
          ((ovLoop rest (j - 1)).1,
           a.init_value.getD (cs "None") :: (ovLoop rest (j - 1)).2)
        else (a.param_decl :: (ovLoop rest (j - 1)).1, a.j_name :: (ovLoop rest (j - 1)).2)
      else (a.param_decl :: (ovLoop rest j).1, a.j_name :: (ovLoop rest j).2) := rfl

/-- Leading mandatory arguments are always kept by the overload loop. -/
theorem ovLoop_mandatory (M O : List JVar) (j : Int)
    (hM : ∀ a ∈ M, a.is_optional = false) :
    ovLoop (M ++ O) j =
      (M.map JVar.param_decl ++ (ovLoop O j).1, M.map JVar.j_name ++ (ovLoop O j).2) := by
  induction M with
  | nil => simp
  | cons a M ih =>
    have ha := hM a (List.mem_cons_self a M)
    rw [List.cons_append, ovLoop_cons, if_neg (by simp [ha]),
        ih (fun u hu => hM u (List.mem_cons_of_mem _ hu))]
    simp

/-- With the counter negative, the overload loop omits every remaining
optional argument, forwarding its stored default. -/
theorem ovLoop_neg (O : List JVar) (hO : ∀ a ∈ O, a.is_optional = true) :
    ∀ j : Int, j < 0 →
      ovLoop O j = ([], O.map (fun a => a.init_value.getD (cs "None"))) := by
  induction O with
  | nil => intro j _; rfl
  | cons a r ih =>
    intro j hj
    rw [ovLoop_cons, if_pos (hO a (List.mem_cons_self a r)),
        if_pos (show j - 1 < 0 from by omega),
        ih (fun u hu => hO u (List.mem_cons_of_mem _ hu)) (j - 1) (by omega)]
    simp

/-- On an all-optional suffix, overload number `i` keeps the first `i`
arguments and forwards the stored defaults of the rest. -/
theorem ovLoop_optional (O : List JVar) (hO : ∀ a ∈ O, a.is_optional = true) :
    ∀ i : Nat, ovLoop O (Int.ofNat i) =
      ((O.take i).map JVar.param_decl,
       (O.take i).map JVar.j_name ++
         (O.drop i).map (fun a => a.init_value.getD (cs "None"))) := by
  induction O with
  | nil => intro i; simp [ovLoop]
  | cons a r ih =>
    intro i
    rw [ovLoop_cons, if_pos (hO a (List.mem_cons_self a r))]
    cases i with
    | zero =>
      rw [if_pos (show Int.ofNat 0 - 1 < 0 from by decide),
          ovLoop_neg r (fun u hu => hO u (List.mem_cons_of_mem _ hu))
            (Int.ofNat 0 - 1) (by decide)]
      simp
    | succ k =>
      rw [if_neg (show ¬ (Int.ofNat (k + 1) - 1 < 0) from by
            simp only [Int.ofNat_eq_coe]; omega),
          show Int.ofNat (k + 1) - 1 = Int.ofNat k from by
            simp only [Int.ofNat_eq_coe]; omega,
          ih (fun u hu => hO u (List.mem_cons_of_mem _ hu)) k]
      simp

/-- C7: for a method whose (constructor-extended) argument list splits into
mandatory arguments `M` followed by optional arguments `O`,
`get_all_declarations` lists exactly `|O| + 1` implementations: the full
declaration, then for each `i < |O|` an overload that keeps the mandatory
arguments and the first `i` optional ones and forwards the stored default
values of the omitted arguments. -/
theorem c7_overloads :
    ∀ (c : JClass) (m : JMethod) (M O : List JVar),
      allArgs c m = M ++ O →
      (∀ a ∈ M, a.is_optional = false) →
      (∀ a ∈ O, a.is_optional = true) →
      getAllDeclsList c m =
        JMethod.declaration c m ::
          (List.range O.length).map (fun i =>
            cs "  " ++ ovHead c m ++ cs "(" ++
              joinL (cs ", ")
                (M.map JVar.param_decl ++ (O.take i).map JVar.param_decl) ++
              cs ") \x7b\n    " ++ ovFwd c m ++ cs "(" ++
              joinL (cs ", ")
                (M.map JVar.j_name ++ ((O.take i).map JVar.j_name ++
                  (O.drop i).map (fun a => a.init_value.getD (cs "None")))) ++
              cs ");\n  \x7d") ∧
      (getAllDeclsList c m).length = O.length + 1 := by
  intro c m M O hall hM hO
  have hfil : (allArgs c m).filter JVar.is_optional = O := by
    rw [hall, List.filter_append, List.filter_eq_nil_iff.mpr (by intro a ha; simp [hM a ha]),
        List.filter_eq_self.mpr hO, List.nil_append]
  have hlist : getAllDeclsList c m =
      JMethod.declaration c m ::
        (List.range O.length).map (fun i =>
          cs "  " ++ ovHead c m ++ cs "(" ++
            joinL (cs ", ")
              (M.map JVar.param_decl ++ (O.take i).map JVar.param_decl) ++
            cs ") \x7b\n    " ++ ovFwd c m ++ cs "(" ++
            joinL (cs ", ")
              (M.map JVar.j_name ++ ((O.take i).map JVar.j_name ++
                (O.drop i).map (fun a => a.init_value.getD (cs "None")))) ++
            cs ");\n  \x7d") := by
    rw [getAllDeclsList_eq, hfil]
    cases O with
    | nil =>
      rw [if_neg (by simp)]
      simp
    | cons o O' =>
      rw [if_pos ⟨by rw [hall]; simp, by simp⟩]
      congr 1
      apply List.map_congr_left
      intro i _
      rw [hall, ovLoop_mandatory M (o :: O') (Int.ofNat i) hM,
          ovLoop_optional (o :: O') hO i]
  exact ⟨hlist, by rw [hlist, List.length_cons, List.length_map, List.length_range]⟩

/-- C7 witness: the method `m(int x, int y = 0)` of class `W` emits two
implementations. -/
theorem c7_witness :
    (allArgs clsW methW =
      [mkJVar (cs "x") (cs "int")] ++ [(mkJVar (cs "y") (cs "int")).setOptional]) ∧
    (getAllDeclsList clsW methW).length =
      [(mkJVar (cs "y") (cs "int")).setOptional].length + 1 :=
  ⟨by decide,
   (c7_overloads clsW methW [mkJVar (cs "x") (cs "int")]
     [(mkJVar (cs "y") (cs "int")).setOptional]
     (by decide) (by decide) (by decide)).2⟩

/-- `set_union` with an empty first set. -/
theorem setUnion_nil_left (b : List (List Char)) : setUnion [] b = b := by
  simp [setUnion]

/-- `ParserContext.parse_expr` never touches the translator's type, attribute
and method maps. -/
theorem ctxParseExpr_maps (st : ATState) (text : List Char) :
    (ctxParseExpr st text).2.tmap = st.tmap ∧
    (ctxParseExpr st text).2.amap = st.amap ∧
    (ctxParseExpr st text).2.meths = st.meths := by
  unfold ctxParseExpr
  dsimp only
  split
  · split
    · exact ⟨rfl, rfl, rfl⟩
    · exact ⟨rfl, rfl, rfl⟩
  · exact ⟨rfl, rfl, rfl⟩

/-- The result component of `ParserContext.parse_expr` depends on the state
only through the macro table and the type/struct sets the parser is seeded
with. -/
theorem ctxParseExpr_fst_congr (st1 st2 : ATState) (text : List Char)
    (hm : st1.ctxMacros = st2.ctxMacros)
    (hty : setUnion parserPrims st1.ctxTypes = setUnion parserPrims st2.ctxTypes)
    (hst : st1.ctxStructs = st2.ctxStructs) :
    (ctxParseExpr st1 text).1 = (ctxParseExpr st2 text).1 := by
  unfold ctxParseExpr
  dsimp only
  rw [hm, hty, hst]
  split
  · split <;> rfl
  · rfl

/-- `translate_action` never touches the type, attribute and method maps. -/
theorem translateAction_maps (st : ATState) (text : List Char) :
    (translateAction st text).2.tmap = st.tmap ∧
    (translateAction st text).2.amap = st.amap ∧
    (translateAction st text).2.meths = st.meths := by
  have h := ctxParseExpr_maps st text
  unfold translateAction
  cases hc : ctxParseExpr st text with
  | mk r1 s1 =>
    rw [hc] at h
    dsimp only at h
    cases r1 with
    | error e => exact h
    | ok ast =>
      dsimp only
      split
      · exact h
      · exact h

/-- C8, amended: a second `translate_action` call on the same expression
string returns the first call's result, provided the first call left the
shared parser context as the second call sees it: the macro table unchanged
and the type and struct sets unchanged up to the parser's seeding with its
primitive types. -/
theorem c8_amended (st : ATState) (text : List Char)
    (hm : (translateAction st text).2.ctxMacros = st.ctxMacros)
    (hty : setUnion parserPrims (translateAction st text).2.ctxTypes =
      setUnion parserPrims st.ctxTypes)
    (hst : (translateAction st text).2.ctxStructs = st.ctxStructs) :
    (translateAction ((translateAction st text).2) text).1 =
      (translateAction st text).1 := by
  have hmaps := translateAction_maps st text
  have hP : (ctxParseExpr ((translateAction st text).2) text).1 =
      (ctxParseExpr st text).1 :=
    ctxParseExpr_fst_congr _ st text hm (by rw [hty]) (by rw [hst])
  have hm1 := ctxParseExpr_maps st text
  have hm2 := ctxParseExpr_maps ((translateAction st text).2) text
  conv_lhs => rw [translateAction]
  conv_rhs => rw [translateAction]
  cases hc2 : ctxParseExpr ((translateAction st text).2) text with
  | mk r2 s2 =>
    cases hc1 : ctxParseExpr st text with
    | mk r1 s1 =>
      rw [hc1, hc2] at hP
      dsimp only at hP
      rw [hc1] at hm1
      rw [hc2] at hm2
      dsimp only at hm1 hm2
      rw [hP]
      cases r1 with
      | error e => rfl
      | ok ast =>
        have e0 : (translateAction st text).2.ctxMacros = st.ctxMacros := hm
        have et : s2.tmap = s1.tmap := by rw [hm2.1, hm1.1, hmaps.1]
        have ea : s2.amap = s1.amap := by rw [hm2.2.1, hm1.2.1, hmaps.2.1]
        have em : s2.meths = s1.meths := by rw [hm2.2.2, hm1.2.2, hmaps.2.2]
        dsimp only
        rw [e0, et, ea, em]
        split <;> rfl

/-- C8, counterexample: on the shared-context translator, translating
`A⏎#define A B` registers the macro `A ↦ B` in the shared tokenizer context;
the visitor maps are untouched, yet the second call on the very same
expression string translates to `B` where the first translated to `A`. -/
theorem c8_counterexample : ¬ claimC8At st0 textA := fun h =>
  absurd (congrArg resStr (h (by decide) (by decide) (by decide))) (by decide)

/-- C8 witness: the amended theorem at the expression `a + b`, which leaves
the shared context unchanged up to the parser's primitive seeding. -/
theorem c8_amended_witness :
    ((translateAction st0 textAB).2.ctxMacros = st0.ctxMacros) ∧
    ((translateAction ((translateAction st0 textAB).2) textAB).1 =
      (translateAction st0 textAB).1) :=
  ⟨by decide, c8_amended st0 textAB (by decide) (by decide) (by decide)⟩
